import Mathlib

/-!
Verification development for the WaterWorld5 repository.

Shallow embedding of the two subsystems of the repository:
  - the deterministic procedural terrain generator (unifiedTerrain.js,
    seededRandom.js), and
  - the leader-side session formation / relay state machine
    (networkWorker.js).

Modelling conventions:
  - JavaScript numbers are modelled as exact rationals.  Transcendental
    primitives of the JS Math object (sin, cos, sqrt, exp, pow, PI) are not
    rational-valued, so they are abstracted into a structure of
    uninterpreted functions, and every theorem holds for an arbitrary
    interpretation (concrete interpretations instantiate the witnesses).
    Math.floor, Math.round, Math.abs, Math.max and Math.min are exact
    on rationals and are modelled directly.
  - Bitwise operators (applied by JS to 32-bit two's-complement views of
    numbers) are modelled over the integers with explicit reduction
    modulo 2^32.  The two multiplications inside hash2D are modelled as
    exact integer multiplications; IEEE doubles round products above 2^53,
    which no claim in this development depends on.
  - Fallible code paths (TypeError on dereferencing a null mesh / a
    missing height-table entry) return Option, with none for the throw.
-/

namespace WaterWorld

/-- Inclusive integer range a..b, empty when b < a (the JS loop
for (i = a; i <= b; i++)). -/
def intRange (a b : ℤ) : List ℤ :=
  (List.range (b + 1 - a).toNat).map (fun i : ℕ => a + (i : ℤ))

/-- Association-list lookup, first entry with the given key (JS object /
Map indexing). -/
def assocFind {α β : Type} [DecidableEq α] (k : α) : List (α × β) → Option β
  | [] => none
  | (k', v) :: rest => if k' = k then some v else assocFind k rest

/-- JS ToUint32: reduce an integer to its unsigned 32-bit representative. -/
def toUInt32 (n : ℤ) : ℕ := (n % (2 ^ 32 : ℤ)).toNat

/-- JS ToInt32: reduce an integer to its signed 32-bit representative. -/
def toInt32 (n : ℤ) : ℤ :=
  let m := n % (2 ^ 32 : ℤ)
  if m < 2 ^ 31 then m else m - 2 ^ 32

/-- JS bitwise xor a ^ b : both operands pass through ToInt32, the bits are
xored, the result is read back as signed 32-bit. -/
def xor32 (a b : ℤ) : ℤ :=
  toInt32 (Nat.xor (toUInt32 a) (toUInt32 b) : ℕ)

/-- JS sign-propagating right shift a >> k on the ToInt32 view
(arithmetic shift = flooring division by 2^k). -/
def shr32 (a : ℤ) (k : ℕ) : ℤ := Int.fdiv (toInt32 a) (2 ^ k)

/-- hash2D from unifiedTerrain.js lines 6-12:
let h = seed ^ (x * 374761393) ^ (z * 668265263);
h = (h ^ (h >> 13)) * 1274126177;
h = h ^ (h >> 16);
return h >>> 0. -/
def hash2D (seed x z : ℤ) : ℕ :=
  let h0 := xor32 (xor32 seed (x * 374761393)) (z * 668265263)
  let h1 := (xor32 h0 (shr32 h0 13)) * 1274126177
  let h2 := xor32 h1 (shr32 h1 16)
  toUInt32 h2

/-- Abstract interpretation of the transcendental JS Math primitives used
by the terrain code.  Every theorem below is proved for an arbitrary
interpretation; ECMAScript fixes particular exact values (for instance
Math.sin(+0) = +0), which appear as hypotheses where needed. -/
structure JSMath where
  sin : ℚ → ℚ
  cos : ℚ → ℚ
  sqrt : ℚ → ℚ
  exp : ℚ → ℚ
  pow : ℚ → ℚ → ℚ
  PI : ℚ

/-- The running scalar of a seededRandom closure (seededRandom.js: the
captured variable x). -/
structure RandState where
  x : ℚ
deriving DecidableEq

/-- One scrambling step of seededRandom.js: Math.sin(v) * 10000. -/
def scrambleStep (M : JSMath) (v : ℚ) : ℚ := M.sin v * 10000

/-- seededRandom(seed) from seededRandom.js: the closure is created with
x = Math.sin(seed) * 10000. -/
def seededRandom (M : JSMath) (seed : ℚ) : RandState :=
  ⟨scrambleStep M seed⟩

/-- One call of the closure returned by seededRandom:
x = Math.sin(x) * 10000; return x - Math.floor(x). -/
def randNext (M : JSMath) (s : RandState) : ℚ × RandState :=
  let x := scrambleStep M s.x
  (x - (⌊x⌋ : ℤ), ⟨x⟩)

/-- The running scalar after n + 1 scrambling steps from the seed
(index 0 is the value stored at instantiation). -/
def randIter (M : JSMath) (seed : ℚ) : ℕ → ℚ
  | 0 => scrambleStep M seed
  | n + 1 => scrambleStep M (randIter M seed n)

/-- The n-th draw (0-indexed) of the stream returned by
seededRandom(seed): the fractional part of the running scalar after the
(n+1)-st call-time scramble. -/
def randStream (M : JSMath) (seed : ℚ) (n : ℕ) : ℚ :=
  randIter M seed (n + 1) - (⌊randIter M seed (n + 1)⌋ : ℤ)

/-- Smootherstep helper from generateTerrainHeight (unifiedTerrain.js
lines 239-242): clamp (x-e0)/(e1-e0) to the unit interval, then apply the
quintic t^3 (t (6 t - 15) + 10). -/
def smootherstep (edge0 edge1 t : ℚ) : ℚ :=
  let c := max 0 (min 1 ((t - edge0) / (edge1 - edge0)))
  c * c * c * (c * (c * 6 - 15) + 10)

/-- Trench-candidate accumulation rule of generateTerrainHeight
(unifiedTerrain.js lines 636-641 and the identical lines 715-720).  The
accumulator is the pair (trenchFinalBlend, trenchFinalDepth); a candidate
is the pair (blend, trenchDepth) of a trench whose footprint contains the
sample.  The candidate's blended value is computed against the running
accumulated depth, and the candidate overwrites the accumulator when its
blend exceeds the running blend or its blended value is deeper. -/
def trenchSelect (acc : ℚ × ℚ) (cand : ℚ × ℚ) : ℚ × ℚ :=
  let blended := cand.2 * cand.1 + acc.2 * (1 - cand.1)
  if acc.1 < cand.1 ∨ blended < acc.2 then (cand.1, blended) else acc

/-- The trench carving pass over the candidates whose footprint contains
the sample point, in loop visit order, starting from blend 0 and the
pre-trench height; the returned height is the accumulated depth.  This is
the fold that generateTerrainHeight performs through trenchSelect. -/
def trenchPass (h : ℚ) (cands : List (ℚ × ℚ)) : ℚ :=
  (cands.foldl trenchSelect (0, h)).2

/-- Follows the spec's words, for comparison with trenchPass: among all
candidate trenches whose footprint includes the point, the one producing
the deepest blended result wins, each candidate blended against the
pre-trench height, independently of visit order. -/
def specDeepestTrenchResult (h : ℚ) (cands : List (ℚ × ℚ)) : ℚ :=
  cands.foldl (fun acc c => min acc (c.2 * c.1 + h * (1 - c.1))) h

/-- Octave loop of deterministicFractalNoise (unifiedTerrain.js lines
382-389), threading the stream state explicitly. -/
def fractalOctaves (M : JSMath) (x z : ℚ) :
    ℕ → ℚ → ℚ → ℚ → ℚ → ℚ → RandState → ℚ × RandState
  | 0, total, _, _, _, _, g => (total, g)
  | n + 1, total, freq, amp, phX, phZ, g =>
    let (d1, g) := randNext M g
    let (d2, g) := randNext M g
    let total := total + M.sin ((x + phX) * freq + d1 * 10) *
      M.cos ((z + phZ) * freq + d2 * 10) * amp
    let (d3, g) := randNext M g
    let freq := freq * (2.1 + d3 * 0.3)
    let (d4, g) := randNext M g
    let amp := amp * (0.45 + d4 * 0.15)
    let (d5, g) := randNext M g
    let phX := phX + d5 * 1000
    let (d6, g) := randNext M g
    let phZ := phZ + d6 * 1000
    fractalOctaves M x z n total freq amp phX phZ g

/-- deterministicFractalNoise from generateTerrainHeight (unifiedTerrain.js
lines 376-391): two initial phase draws, then the octave loop. -/
def deterministicFractalNoise (M : JSMath) (x z : ℚ) (octaves : ℕ)
    (baseFreq baseAmp : ℚ) (g : RandState) : ℚ × RandState :=
  let (p1, g) := randNext M g
  let phaseX := p1 * 1000
  let (p2, g) := randNext M g
  let phaseZ := p2 * 1000
  fractalOctaves M x z octaves 0 baseFreq baseAmp phaseX phaseZ g

/-- Shape parameters drawn per island cell in generateTerrainHeight
(unifiedTerrain.js lines 315-324). -/
structure IslandParams where
  base : ℚ
  jagged : ℚ
  tall : ℚ
  wide : ℚ
  arch : ℚ
  rocky : ℚ
  cliff : ℚ
  noise : ℚ
deriving DecidableEq

instance : Inhabited IslandParams := ⟨⟨0, 0, 0, 0, 0, 0, 0, 0⟩⟩

/-- Shape parameters drawn per island cell in generateTerrainHeightWithSeed
(unifiedTerrain.js lines 877-886). -/
structure IslandParamsW where
  base : ℚ
  jagged : ℚ
  tall : ℚ
  pillar : ℚ
  wide : ℚ
  arch : ℚ
  spire : ℚ
  noise : ℚ
deriving DecidableEq

instance : Inhabited IslandParamsW := ⟨⟨0, 0, 0, 0, 0, 0, 0, 0⟩⟩

/-- Body of the trench double loop of generateTerrainHeight for one grid
offset (tx, tz) (unifiedTerrain.js lines 531-723).  The accumulator acc is
the pair (trenchFinalBlend, trenchFinalDepth).  The snaking-trench block
is nested inside the main trench's spawn condition, as in the source, and
the mountain-roughness block subtracts from the accumulated depth before
the containment test, as in the source. -/
def trenchCellStep (M : JSMath) (terrainSeed : ℤ) (x z : ℚ)
    (acc : ℚ × ℚ) (tx tz : ℤ) : ℚ × ℚ :=
  let trenchGrid : ℚ := 1200
  let trenchCenterX : ℤ := ⌊(x + (tx : ℚ) * trenchGrid) / trenchGrid⌋ * 1200
  let trenchCenterZ : ℤ := ⌊(z + (tz : ℚ) * trenchGrid) / trenchGrid⌋ * 1200
  let trenchSeed : ℕ := hash2D (xor32 terrainSeed 0xBEEFCAFE) trenchCenterX trenchCenterZ
  let r := seededRandom M (trenchSeed : ℚ)
  let trenchDensitySeed : ℤ := xor32 terrainSeed 0x7A7A7A7
  let trenchDensityNoise :=
    M.sin ((trenchCenterX : ℚ) * 0.00013 + (trenchDensitySeed : ℚ) * 0.0001) *
    M.cos ((trenchCenterZ : ℚ) * 0.00019 + (trenchDensitySeed : ℚ) * 0.0002)
  let trenchDensityFactor := 1.0 + trenchDensityNoise * 0.3
  let (dSpawn, r) := randNext M r
  if dSpawn < 0.33 * trenchDensityFactor then
    let (d1, r) := randNext M r
    let angle := d1 * M.PI * 2
    let (d2, r) := randNext M r
    let length := 1200 + d2 * 4000
    let (d3, r) := randNext M r
    let width := 80 + d3 * 320
    let (d4, r) := randNext M r
    let baseDepth := -18 - d4 * 32
    let depthNoise := 0.5 + |M.sin ((trenchCenterX : ℚ) * 0.00021 +
      (trenchCenterZ : ℚ) * 0.00017 + (trenchSeed : ℚ) * 0.00001)| * 1.0
    let depth := baseDepth * (8 + depthNoise * 2)
    let dx := x - (trenchCenterX : ℚ)
    let dz := z - (trenchCenterZ : ℚ)
    let along := dx * M.cos angle + dz * M.sin angle
    let across := -dx * M.sin angle + dz * M.cos angle
    let (c1, r) := randNext M r
    let curveAmp1 := 80 + c1 * 100
    let (c2, r) := randNext M r
    let curveFreq1 := 0.00035 + c2 * 0.0007
    let (c3, r) := randNext M r
    let curveAmp2 := 20 + c3 * 40
    let (c4, r) := randNext M r
    let curveFreq2 := 0.0007 + c4 * 0.0015
    let (c5, r) := randNext M r
    let curveAmp3 := 8 + c5 * 16
    let (c6, r) := randNext M r
    let curveFreq3 := 0.001 + c6 * 0.002
    let (c7, r) := randNext M r
    let curveAmp4 := 40 + c7 * 60
    let (c8, r) := randNext M r
    let curveFreq4 := 0.0015 + c8 * 0.0025
    let (c9, r) := randNext M r
    let curveAmp5 := 16 + c9 * 24
    let (c10, r) := randNext M r
    let curveFreq5 := 0.0025 + c10 * 0.0035
    let localNoiseSeed : ℕ := hash2D (xor32 terrainSeed 0xF00DF00D) ⌊x⌋ ⌊z⌋
    let ln := seededRandom M (localNoiseSeed : ℚ)
    let (lw, ln) := randNext M ln
    let localWiggle := (lw - 0.5) * 6
    let (o1, r) := randNext M r
    let (o2, r) := randNext M r
    let (o3, r) := randNext M r
    let (o4, r) := randNext M r
    let (o5, r) := randNext M r
    let (o6, r) := randNext M r
    let (o7, r) := randNext M r
    let curveOffset :=
      M.sin (along * curveFreq1 + o1 * 10) * curveAmp1 +
      M.cos (along * curveFreq2 + o2 * 20) * curveAmp2 +
      M.sin (along * curveFreq3 + o3 * 30) * curveAmp3 +
      M.sin (along * curveFreq4 + o4 * 40) * curveAmp4 +
      M.cos (along * curveFreq5 + o5 * 50) * curveAmp5 +
      M.sin ((along + across) * 0.001 + o6 * 5) * 22 +
      M.cos ((along - across) * 0.0012 + o7 * 7) * 16 +
      localWiggle
    let (fSpawn, r) := randNext M r
    let (forkOffset, r) :=
      if fSpawn < 0.08 then
        let (fDir, r) := randNext M r
        let forkAngle := angle + (if fDir < 0.5 then M.PI / 4 else -(M.PI / 4))
        let forkAlong := dx * M.cos forkAngle + dz * M.sin forkAngle
        let (fCrv, r) := randNext M r
        let forkCurve := M.sin (forkAlong * 0.001 + fCrv * 5) * 30
        (if |forkAlong| < length * 0.4 then forkCurve else 0, r)
      else ((0 : ℚ), r)
    let acrossC := across - curveOffset + forkOffset
    let trenchMountainSeed : ℤ := xor32 (trenchSeed : ℤ) 0xA7A7A7A7
    let trenchMountainNoise :=
      M.sin (x * 0.00013 + (trenchMountainSeed : ℚ) * 0.0001) *
      M.cos (z * 0.00019 + (trenchMountainSeed : ℚ) * 0.0002)
    let trenchMountainFactor := max 0 (trenchMountainNoise * 0.5 + 0.5)
    let accDepth :=
      if 0.6 < trenchMountainFactor then
        let ridge1 := M.sin (x * 0.008 + z * 0.011 + (trenchMountainSeed : ℚ) * 0.1) * 5.5
        let ridge2 := M.cos (x * 0.014 + z * 0.017 + (trenchMountainSeed : ℚ) * 0.2) * 3.2
        let ridge3 := M.sin (x * 0.021 + z * 0.019 + (trenchMountainSeed : ℚ) * 0.3) * 2.1
        let rough := M.sin (x * 0.09 + z * 0.07 + (trenchMountainSeed : ℚ) * 0.4) * 0.8
        let trenchMountainBlend := M.pow ((trenchMountainFactor - 0.6) / 0.4) 1.3
        acc.2 - (ridge1 + ridge2 + ridge3 + rough) * trenchMountainBlend
      else acc.2
    let acc0 := (acc.1, accDepth)
    let (w1, r) := randNext M r
    let (w2, r) := randNext M r
    let (lwd, ln) := randNext M ln
    let trenchWidth := width + M.sin (along * 0.001 + w1 * 5) * width * 0.12 +
      M.cos (along * 0.0012 + w2 * 7) * width * 0.05 + (lwd - 0.5) * 4
    let (llen, _) := randNext M ln
    let trenchLength := length * (0.98 + (llen - 0.5) * 0.03)
    let accMain :=
      if |along| < trenchLength / 2 ∧ |acrossC| < trenchWidth then
        let core := 1 - |acrossC| / trenchWidth
        let endBlend := smootherstep 0 1 (1 - |along| / (trenchLength / 2))
        let blend := M.pow (smootherstep 0 1 core) 0.18 * endBlend
        let (ra, r) := randNext M r
        let rockAmp := 2 + ra * 3
        let (k1, r) := randNext M r
        let (k2, r) := randNext M r
        let rock0 := M.sin (x * 0.011 + k1 * 10) * M.cos (z * 0.013 + k2 * 8) * rockAmp * 0.18
        let (k3, r) := randNext M r
        let rock1 := rock0 + M.sin (x * 0.003 + z * 0.005 + k3 * 20) * (rockAmp * 0.08)
        let (k4, r) := randNext M r
        let rock := rock1 + (k4 - 0.5) * rockAmp * 0.02
        let alongNorm := (along + trenchLength / 2) / trenchLength
        let (v1, r) := randNext M r
        let (v2, _) := randNext M r
        let depthVar := M.sin (alongNorm * M.PI * 2 + v1 * 6.28) * 2.5 +
          M.cos (alongNorm * M.PI * 4 + v2 * 12.56) * 1.1
        let trenchDepth := depth + rock * blend + depthVar
        trenchSelect acc0 (blend, trenchDepth)
      else acc0
    -- second trench type: smaller, skinnier, snaking (nested in the
    -- source inside the main trench's spawn branch)
    let snakeTrenchSeed : ℕ := hash2D (xor32 terrainSeed 0xDEADBEEF) trenchCenterX trenchCenterZ
    let sr := seededRandom M (snakeTrenchSeed : ℚ)
    let (sSpawn, sr) := randNext M sr
    if sSpawn < 0.18 * trenchDensityFactor then
      let (s1, sr) := randNext M sr
      let angle := s1 * M.PI * 2
      let (s2, sr) := randNext M sr
      let length := 600 + s2 * 1200
      let (s3, sr) := randNext M sr
      let width := 30 + s3 * 60
      let (s4, sr) := randNext M sr
      let baseDepth := -10 - s4 * 18
      let depthNoise := 0.5 + |M.sin ((trenchCenterX : ℚ) * 0.00031 +
        (trenchCenterZ : ℚ) * 0.00027 + (snakeTrenchSeed : ℚ) * 0.00003)| * 0.7
      let depth := baseDepth * (4 + depthNoise * 1.2)
      let dx := x - (trenchCenterX : ℚ)
      let dz := z - (trenchCenterZ : ℚ)
      let along := dx * M.cos angle + dz * M.sin angle
      let across := -dx * M.sin angle + dz * M.cos angle
      let (t1, sr) := randNext M sr
      let curveAmp1 := 60 + t1 * 60
      let (t2, sr) := randNext M sr
      let curveFreq1 := 0.0007 + t2 * 0.0012
      let (t3, sr) := randNext M sr
      let curveAmp2 := 18 + t3 * 22
      let (t4, sr) := randNext M sr
      let curveFreq2 := 0.0012 + t4 * 0.0021
      let (t5, sr) := randNext M sr
      let curveAmp3 := 7 + t5 * 9
      let (t6, sr) := randNext M sr
      let curveFreq3 := 0.002 + t6 * 0.003
      let (t7, sr) := randNext M sr
      let curveAmp4 := 30 + t7 * 40
      let (t8, sr) := randNext M sr
      let curveFreq4 := 0.003 + t8 * 0.004
      let (t9, sr) := randNext M sr
      let curveAmp5 := 12 + t9 * 18
      let (t10, sr) := randNext M sr
      let curveFreq5 := 0.004 + t10 * 0.005
      let localNoiseSeed : ℕ := hash2D (xor32 terrainSeed 0xF00DF00D) ⌊x⌋ ⌊z⌋
      let sln := seededRandom M (localNoiseSeed : ℚ)
      let (slw, sln) := randNext M sln
      let localWiggle := (slw - 0.5) * 3
      let (u1, sr) := randNext M sr
      let (u2, sr) := randNext M sr
      let (u3, sr) := randNext M sr
      let (u4, sr) := randNext M sr
      let (u5, sr) := randNext M sr
      let (u6, sr) := randNext M sr
      let (u7, sr) := randNext M sr
      let curveOffset :=
        M.sin (along * curveFreq1 + u1 * 10) * curveAmp1 +
        M.cos (along * curveFreq2 + u2 * 20) * curveAmp2 +
        M.sin (along * curveFreq3 + u3 * 30) * curveAmp3 +
        M.sin (along * curveFreq4 + u4 * 40) * curveAmp4 +
        M.cos (along * curveFreq5 + u5 * 50) * curveAmp5 +
        M.sin ((along + across) * 0.001 + u6 * 5) * 18 +
        M.cos ((along - across) * 0.0012 + u7 * 7) * 12 +
        localWiggle
      let (tw, sr) := randNext M sr
      let twist := M.sin (along * 0.002 + tw * 8) * 22
      let (bd, sr) := randNext M sr
      let bend := M.cos (across * 0.002 + bd * 6) * 14
      let acrossC := across - curveOffset + twist + bend
      let (x1, sr) := randNext M sr
      let (x2, sr) := randNext M sr
      let (slwd, sln) := randNext M sln
      let trenchWidth := width + M.sin (along * 0.001 + x1 * 5) * width * 0.09 +
        M.cos (along * 0.0012 + x2 * 7) * width * 0.04 + (slwd - 0.5) * 2
      let (sllen, _) := randNext M sln
      let trenchLength := length * (0.98 + (sllen - 0.5) * 0.03)
      if |along| < trenchLength / 2 ∧ |acrossC| < trenchWidth then
        let core := 1 - |acrossC| / trenchWidth
        let endBlend := smootherstep 0 1 (1 - |along| / (trenchLength / 2))
        let blend := M.pow (smootherstep 0 1 core) 0.22 * endBlend
        let (sra, sr) := randNext M sr
        let rockAmp := 1.2 + sra * 1.8
        let (q1, sr) := randNext M sr
        let (q2, sr) := randNext M sr
        let rock0 := M.sin (x * 0.011 + q1 * 10) * M.cos (z * 0.013 + q2 * 8) * rockAmp * 0.12
        let (q3, sr) := randNext M sr
        let rock1 := rock0 + M.sin (x * 0.003 + z * 0.005 + q3 * 20) * (rockAmp * 0.05)
        let (q4, sr) := randNext M sr
        let rock := rock1 + (q4 - 0.5) * rockAmp * 0.01
        let alongNorm := (along + trenchLength / 2) / trenchLength
        let (y1, sr) := randNext M sr
        let (y2, _) := randNext M sr
        let depthVar := M.sin (alongNorm * M.PI * 2 + y1 * 6.28) * 1.2 +
          M.cos (alongNorm * M.PI * 4 + y2 * 12.56) * 0.6
        let trenchDepth := depth + rock * blend + depthVar
        trenchSelect accMain (blend, trenchDepth)
      else accMain
    else accMain
  else acc

/-- Island-cell analysis of generateTerrainHeight (unifiedTerrain.js lines
286-327): feature roll, density-modulated thresholds, island variant band
selection and shape parameters.  Returns (hasDeep, hasIsland, islandType,
params). -/
def islandCellInfo (M : JSMath) (terrainSeed : ℤ) (gridX gridZ : ℤ) :
    Bool × Bool × ℕ × IslandParams :=
  let cellSeed : ℕ := hash2D terrainSeed gridX gridZ
  let rC := seededRandom M (cellSeed : ℚ)
  let (featureRoll, rC) := randNext M rC
  let densitySeed : ℤ := xor32 terrainSeed 0xD3A5171
  let densityNoise := M.sin ((gridX : ℚ) * 0.07 + (densitySeed : ℚ) * 0.0001) *
    M.cos ((gridZ : ℚ) * 0.09 + (densitySeed : ℚ) * 0.0002)
  let densityFactor := 1.0 + densityNoise * 0.3
  let deepThreshold := 0.20 * densityFactor
  let islandThreshold := 0.86 * densityFactor
  if featureRoll < deepThreshold then (true, false, 0, default)
  else if featureRoll < islandThreshold then
    let (typeRand, rC) := randNext M rC
    let islandType : ℕ :=
      if typeRand < 0.18 then 1
      else if typeRand < 0.36 then 2
      else if typeRand < 0.60 then 4
      else if typeRand < 0.72 then 5
      else if typeRand < 0.86 then 7
      else if typeRand < 0.93 then 9
      else 8
    let (pb, rC) := randNext M rC
    let (pj, rC) := randNext M rC
    let (pt, rC) := randNext M rC
    let (pw, rC) := randNext M rC
    let (pa, rC) := randNext M rC
    let (pr, rC) := randNext M rC
    let (pc, rC) := randNext M rC
    let (pn, _) := randNext M rC
    (false, true, islandType,
      ⟨10 + pb * 20, pj * 10 + 5, 20 + pt * 30, 1.2 + pw * 1.5,
       10 + pa * 10, 8 + pr * 12, 18 + pc * 22, pn * 2.5 + 0.5⟩)
  else (false, false, 0, default)

/-- Island height and adjusted blend of generateTerrainHeight
(unifiedTerrain.js lines 349-492), for a sample inside an island's
footprint.  Takes the grid cell, the already-computed smootherstep blend
and the cell's variant and parameters; returns the possibly re-curved
blend and the island height.  The variant bands of islandCellInfo never
produce types 3 and 6, whose source branches are dead (type 3) or empty
(types 6 and 8); the type 8 (cliff) branch leaves the height at 0 as in
the source. -/
def islandShape (M : JSMath) (terrainSeed : ℤ) (x z nearestX nearestZ : ℚ)
    (gridX gridZ : ℤ) (islandBlend : ℚ) (islandType : ℕ)
    (params : IslandParams) : ℚ × ℚ :=
  let islandSeed : ℕ := hash2D (xor32 terrainSeed 0xA1A1A1) gridX gridZ
  let rI := seededRandom M (islandSeed : ℚ)
  let (s1, rI) := randNext M rI
  let shapeSkewAngle := s1 * M.PI * 2
  let (s2, rI) := randNext M rI
  let shapeSkewStrength := 0.18 + s2 * 0.32
  let (s3, rI) := randNext M rI
  let shapeWarpFreq := 0.001 + s3 * 0.003
  let (s4, rI) := randNext M rI
  let shapeWarpAmp := 30 + s4 * 60
  let (s5, rI) := randNext M rI
  let shapeNoiseFreq := 0.012 + s5 * 0.018
  let (s6, rI) := randNext M rI
  let shapeNoiseAmp := 8 + s6 * 18
  let dx := x - nearestX
  let dz := z - nearestZ
  let skewedX := dx + M.sin shapeSkewAngle * dz * shapeSkewStrength
  let skewedZ := dz + M.cos shapeSkewAngle * dx * shapeSkewStrength
  let warpedX := skewedX + M.sin (skewedZ * shapeWarpFreq) * shapeWarpAmp
  let warpedZ := skewedZ + M.cos (skewedX * shapeWarpFreq) * shapeWarpAmp
  let (s7, rI) := randNext M rI
  let (s8, rI) := randNext M rI
  let shapeNoise := M.sin (skewedX * shapeNoiseFreq + s7 * 10) *
    M.cos (skewedZ * shapeNoiseFreq + s8 * 10) * shapeNoiseAmp
  let rN := seededRandom M ((xor32 (islandSeed : ℤ) 0xBADA55) : ℚ)
  let (n1, rN) := randNext M rN
  let (n2, rN) := randNext M rN
  let (fractalNoise, _) :=
    deterministicFractalNoise M warpedX warpedZ 4 (0.012 + n1 * 0.01) (7 + n2 * 5) rN
  let (f1, rI) := randNext M rI
  let freq1 := 0.008 + f1 * 0.012
  let (f2, rI) := randNext M rI
  let freq2 := 0.05 + f2 * 0.09
  let (f3, rI) := randNext M rI
  let freq3 := 0.1 + f3 * 0.12
  let (a1, rI) := randNext M rI
  let amp1 := 8 + a1 * 16
  let (a2, rI) := randNext M rI
  let amp2 := 10 + a2 * 18
  let (a3, rI) := randNext M rI
  let amp3 := 12 + a3 * 20
  let (na, rI) := randNext M rI
  let noiseAmp := 2 + na * 6
  let (bc, rI) := randNext M rI
  let blendCurve := 0.5 + bc * 1.2
  if islandType = 1 then
    let (e1, _) := randNext M rI
    (islandBlend, params.base + params.jagged
      + M.sin (warpedX * freq1) * M.cos (warpedZ * freq1) * (amp1 * 0.35)
      + M.sin (warpedX * freq2 + warpedZ * freq3) * (amp2 * 0.25)
      + |M.sin (warpedX * freq3) * M.cos (warpedZ * freq3)| * (amp3 * 0.18)
      + (e1 - 0.5) * (noiseAmp * 0.5)
      + shapeNoise * 0.7
      + fractalNoise)
  else if islandType = 2 then
    let (e1, _) := randNext M rI
    (islandBlend, params.tall
      + M.sin (warpedX * (freq1 * 0.5)) * M.cos (warpedZ * (freq1 * 0.5)) * (amp1 * 0.28)
      + |M.sin (warpedX * (freq2 * 0.4)) * M.cos (warpedZ * (freq2 * 0.4))| * (amp2 * 0.22)
      + (e1 - 0.5) * (noiseAmp * 0.3)
      + shapeNoise * 0.7
      + fractalNoise)
  else if islandType = 3 then
    let (e1, rI) := randNext M rI
    let smallRadius := 90 + e1 * 30
    let dist := M.sqrt (dx * dx + dz * dz)
    let base := params.base * 0.5 + 4
    let mask := max 0 (1 - dist / smallRadius)
    let (e2, rI) := randNext M rI
    let (e3, rI) := randNext M rI
    let noise0 := M.sin (dx * 0.07 + e2 * 10) * M.cos (dz * 0.07 + e3 * 10) * 2
    let (e4, _) := randNext M rI
    let noise := noise0 + (e4 - 0.5) * 1.2
    (M.pow islandBlend (blendCurve * 0.8),
      base * mask + noise * mask + shapeNoise * 0.3 + fractalNoise * 0.5)
  else if islandType = 4 then
    let (e1, _) := randNext M rI
    (M.pow islandBlend blendCurve, params.base
      + M.sin (warpedX * (freq1 * 0.2)) * M.cos (warpedZ * (freq1 * 0.2)) * (amp1 * 0.08)
      + M.sin (warpedX * (freq2 * 0.5)) * M.cos (warpedZ * (freq2 * 0.5)) * (amp2 * 0.04)
      + (e1 - 0.5) * (noiseAmp * 0.08)
      + shapeNoise * 0.7
      + fractalNoise)
  else if islandType = 9 then
    let base := params.base
    let wide := params.wide
    let curve0 := M.sin (warpedX * freq1 * 0.22 + M.cos (warpedZ * freq1 * 0.18)) * (amp1 * 0.09)
    let curve1 := curve0 + M.cos (warpedZ * freq2 * 0.51 + M.sin (warpedX * freq2 * 0.47)) * (amp2 * 0.05)
    let curve2 := curve1 + M.sin ((warpedX + warpedZ) * freq3 * 0.33 + M.cos (warpedX * freq3 * 0.29)) * (amp3 * 0.04)
    let curve3 := curve2 + M.sin (warpedX * 0.021 + warpedZ * 0.017) * M.cos (warpedZ * 0.019 + warpedX * 0.013) * 2.2
    let curve4 := curve3 + M.sin (warpedX * 0.09 + warpedZ * 0.11) * M.sin (warpedZ * 0.07 + warpedX * 0.05) * 1.1
    let (e1, _) := randNext M rI
    let curveNoise := curve4 + (e1 - 0.5) * (noiseAmp * 0.09)
    (M.pow islandBlend (blendCurve * 0.95),
      base + wide * 0.9 + curveNoise + shapeNoise * 0.7 + fractalNoise)
  else if islandType = 5 then
    let (e1, rI) := randNext M rI
    let archOffset := 100 + e1 * 60
    let (e2, rI) := randNext M rI
    let archSpread := 60 + e2 * 40
    let arch1 := M.exp (-((warpedX - archOffset) ^ 2 + warpedZ ^ 2) / (2 * archSpread ^ 2)) * params.arch
    let arch2 := M.exp (-((warpedX + archOffset) ^ 2 + warpedZ ^ 2) / (2 * archSpread ^ 2)) * params.arch
    let (e3, _) := randNext M rI
    (islandBlend, arch1 + arch2
      + M.sin (warpedX * freq1) * M.cos (warpedZ * freq1) * (amp1 * 0.08)
      + (e3 - 0.5) * (noiseAmp * 0.2)
      + shapeNoise * 0.7
      + fractalNoise)
  else if islandType = 7 then
    let (e1, rI) := randNext M rI
    let outcropFreq := 0.09 + e1 * 0.07
    let outcropAmp := params.rocky
    let outcropMask := M.exp (-((warpedX) ^ 2 + (warpedZ) ^ 2) / (2 * 120 ^ 2))
    let (e2, rI) := randNext M rI
    let (e3, rI) := randNext M rI
    let rocky0 := M.sin (warpedX * outcropFreq + e2 * 10) *
      M.cos (warpedZ * outcropFreq + e3 * 10) * outcropAmp
    let (e4, rI) := randNext M rI
    let rocky1 := rocky0 + M.sin (warpedX * outcropFreq * 1.7 +
      warpedZ * outcropFreq * 1.3 + e4 * 10) * outcropAmp * 0.5
    let (e5, _) := randNext M rI
    let rocky2 := rocky1 + (e5 - 0.5) * outcropAmp * 0.2
    let rocky := rocky2 + |M.sin (warpedX * 0.23 + warpedZ * 0.19)| * outcropAmp * 0.7
    (islandBlend, params.base + rocky * outcropMask + shapeNoise * 3.5 + fractalNoise * 3.7)
  else
    (islandBlend, 0)

/-- generateTerrainHeight from unifiedTerrain.js lines 205-771: land-mass
layer, zero-seed fallback, mountain regions (whose contribution the
feature blend below overwrites, as in the source), island / deep-spot
grid, origin deep spot, feature blending, and the final trench carving
pass over the 5 x 5 neighborhood of trench grid cells. -/
def generateTerrainHeight (M : JSMath) (terrainSeed : ℤ) (x z : ℚ) : ℚ :=
  let landMassInterval : ℚ := 8000
  let landMassSize : ℚ := 5000
  let landGridX : ℤ := round (x / landMassInterval)
  let landGridZ : ℤ := round (z / landMassInterval)
  let landCenterX : ℚ := (landGridX : ℚ) * landMassInterval
  let landCenterZ : ℚ := (landGridZ : ℚ) * landMassInterval
  let distToLand := M.sqrt ((x - landCenterX) ^ 2 + (z - landCenterZ) ^ 2)
  let landCellSeed : ℕ := hash2D (xor32 terrainSeed 0x1A2B3C4D) landGridX landGridZ
  let (landRoll, _) := randNext M (seededRandom M (landCellSeed : ℚ))
  let (hasLandMass, landMassBlend, landMassHeight) :=
    if landRoll < 0.08 ∧ distToLand < landMassSize then
      let blend := M.pow (1 - distToLand / landMassSize) 2.2
      let landSeed : ℕ := hash2D (xor32 terrainSeed 0x5EEDBEEF) landGridX landGridZ
      let rL := seededRandom M (landSeed : ℚ)
      let (h1, rL) := randNext M rL
      let hill1 := M.sin ((x - landCenterX) * 0.0007 + h1 * 10) * 60
      let (h2, rL) := randNext M rL
      let hill2 := M.cos ((z - landCenterZ) * 0.0009 + h2 * 20) * 40
      let plateau := max 0 (1 - distToLand / (landMassSize * 0.7)) * 120
      let (h3, _) := randNext M rL
      let rough := M.sin ((x - landCenterX) * 0.005 + (z - landCenterZ) * 0.005 + h3 * 12) * 8
      (true, blend, 80 + hill1 + hill2 + plateau + rough)
    else (false, (0 : ℚ), (0 : ℚ))
  if terrainSeed = 0 then 0
  else
    let seedP : ℤ := terrainSeed + ⌊x * 1000 + z * 1000⌋
    let rP := seededRandom M (seedP : ℚ)
    let mountainSeed : ℤ := xor32 terrainSeed 0xA7A7A7A7
    let mountainNoise := M.sin (x * 0.00013 + (mountainSeed : ℚ) * 0.0001) *
      M.cos (z * 0.00019 + (mountainSeed : ℚ) * 0.0002)
    let mountainFactor := max 0 (mountainNoise * 0.5 + 0.5)
    -- the mountain-region contribution, dead in the source because the
    -- feature blend below reassigns the height variable
    let _heightWithMountains : ℚ :=
      if 0.7 < mountainFactor then
        let ridge1 := M.sin (x * 0.008 + z * 0.011 + (mountainSeed : ℚ) * 0.1) * 7.5
        let ridge2 := M.cos (x * 0.014 + z * 0.017 + (mountainSeed : ℚ) * 0.2) * 5.2
        let ridge3 := M.sin (x * 0.021 + z * 0.019 + (mountainSeed : ℚ) * 0.3) * 3.1
        let rough := M.sin (x * 0.09 + z * 0.07 + (mountainSeed : ℚ) * 0.4) * 1.2
        let mountainBlend := M.pow ((mountainFactor - 0.7) / 0.3) 1.5
        0 + (ridge1 + ridge2 + ridge3 + rough) * mountainBlend
      else 0
    let islandInterval : ℚ := 1000
    let islandSize : ℚ := 600
    let gridX : ℤ := round (x / islandInterval)
    let gridZ : ℤ := round (z / islandInterval)
    let nearestX : ℚ := (gridX : ℚ) * islandInterval
    let nearestZ : ℚ := (gridZ : ℚ) * islandInterval
    let isOrigin := gridX = 0 ∧ gridZ = 0
    let distToFeature := M.sqrt ((x - nearestX) ^ 2 + (z - nearestZ) ^ 2)
    let (hasDeep, hasIsland, islandType, params) :=
      if isOrigin then (false, false, 0, default)
      else islandCellInfo M terrainSeed gridX gridZ
    let mainDeepSpotRadius : ℚ := 300
    let mainDeepDensitySeed : ℤ := xor32 terrainSeed 0xDEEFACE
    let mainDeepDensityNoise := M.sin (0 * 0.07 + (mainDeepDensitySeed : ℚ) * 0.0001) *
      M.cos (0 * 0.09 + (mainDeepDensitySeed : ℚ) * 0.0002)
    let mainDeepDensityFactor := 1.0 + mainDeepDensityNoise * 0.3
    let distToMainDeep := M.sqrt (x * x + z * z)
    let mainDeepBlend :=
      if distToMainDeep < mainDeepSpotRadius * mainDeepDensityFactor then
        1 - distToMainDeep / (mainDeepSpotRadius * mainDeepDensityFactor)
      else 0
    let (dp, rP) := randNext M rP
    let deepHeight := -10.0 + M.sin (x * 0.002) * M.cos (z * 0.002) * 0.5 + (dp - 0.5) * 0.1
    let deepBlend :=
      if hasDeep ∧ distToFeature < islandSize then
        smootherstep 0 1 (1 - distToFeature / islandSize)
      else 0
    let (islandBlend, islandHeight) :=
      if hasIsland ∧ distToFeature < islandSize then
        islandShape M terrainSeed x z nearestX nearestZ gridX gridZ
          (smootherstep 0 1 (1 - distToFeature / islandSize)) islandType params
      else ((0 : ℚ), (0 : ℚ))
    let (np, _) := randNext M rP
    let normalHeight :=
      M.sin (x * 0.01) * M.cos (z * 0.01) * 3.0 +
      M.sin (x * 0.015 + z * 0.01) * 2.0 +
      M.sin (x * 0.03) * M.cos (z * 0.025) * 1.5 +
      M.cos (x * 0.025 + z * 0.035) * 1.2 +
      M.sin (x * 0.08) * M.cos (z * 0.06) * 0.6 +
      M.sin (x * 0.05 + z * 0.07) * 0.8 +
      (np - 0.5) * 0.5
    let height :=
      if hasLandMass ∧ 0 < landMassBlend then
        landMassHeight * landMassBlend + normalHeight * (1 - landMassBlend)
      else if 0 < mainDeepBlend then
        deepHeight * mainDeepBlend + normalHeight * (1 - mainDeepBlend)
      else if 0 < deepBlend then
        deepHeight * deepBlend + normalHeight * (1 - deepBlend)
      else if 0 < islandBlend then
        islandHeight * islandBlend + normalHeight * (1 - islandBlend)
      else normalHeight
    if hasLandMass ∧ 0.5 < landMassBlend then height
    else
      ((intRange (-2) 2).foldl (fun a tx =>
        (intRange (-2) 2).foldl (fun a2 tz =>
          trenchCellStep M terrainSeed x z a2 tx tz) a) (0, height)).2

/-- generateTerrainHeightWithSeed from unifiedTerrain.js lines 839-961:
the simplified copy of the height function used by regenerateTerrain,
parameterized on the pending seed. -/
def generateTerrainHeightWithSeed (M : JSMath) (x z : ℚ) (seed : ℤ) : ℚ :=
  let localSeed : ℤ := seed + ⌊x * 1000 + z * 1000⌋
  let rP := seededRandom M (localSeed : ℚ)
  let islandInterval : ℚ := 1000
  let islandSize : ℚ := 600
  let nearestX : ℚ := (round (x / islandInterval) : ℤ) * islandInterval
  let nearestZ : ℚ := (round (z / islandInterval) : ℤ) * islandInterval
  let isOrigin := nearestX = 0 ∧ nearestZ = 0
  let distToIsland := M.sqrt ((x - nearestX) ^ 2 + (z - nearestZ) ^ 2)
  let hasIsland : Bool :=
    if isOrigin then false
    else
      let gridX : ℤ := round (nearestX / islandInterval)
      let gridZ : ℤ := round (nearestZ / islandInterval)
      let presenceSeed : ℕ := hash2D (xor32 seed 0xA5A5A5A5) gridX gridZ
      let (presenceRand, _) := randNext M (seededRandom M (presenceSeed : ℚ))
      decide (0.33 < presenceRand)
  let cell : Option (ℚ × ℕ × IslandParamsW) :=
    if hasIsland ∧ distToIsland < islandSize then
      let islandBlend := 1 - distToIsland / islandSize
      let gridX : ℤ := round (nearestX / islandInterval)
      let gridZ : ℤ := round (nearestZ / islandInterval)
      let islandSeed : ℕ := hash2D seed gridX gridZ
      let rI := seededRandom M (islandSeed : ℚ)
      let (typeRand, rI) := randNext M rI
      let islandType : ℕ :=
        if typeRand < 0.18 then 0
        else if typeRand < 0.36 then 1
        else if typeRand < 0.54 then 2
        else if typeRand < 0.7 then 3
        else if typeRand < 0.82 then 4
        else if typeRand < 0.92 then 5
        else 6
      let (pb, rI) := randNext M rI
      let (pj, rI) := randNext M rI
      let (pt, rI) := randNext M rI
      let (pp, rI) := randNext M rI
      let (pw, rI) := randNext M rI
      let (pa, rI) := randNext M rI
      let (ps, rI) := randNext M rI
      let (pn, _) := randNext M rI
      some (islandBlend, islandType,
        ⟨10 + pb * 20, pj * 10 + 5, 20 + pt * 30, 30 + pp * 40,
         1.2 + pw * 1.5, 10 + pa * 10, 40 + ps * 30, pn * 2.5 + 0.5⟩)
    else none
  let deepSpotRadius : ℚ := 300
  let distToDeep := M.sqrt (x * x + z * z)
  let deepBlend := if distToDeep < deepSpotRadius then 1 - distToDeep / deepSpotRadius else 0
  let (dp, rP) := randNext M rP
  let deepHeight := -10.0 + M.sin (x * 0.002) * M.cos (z * 0.002) * 0.5 + (dp - 0.5) * 0.1
  let (islandBlend, islandHeight) :=
    match cell with
    | none => ((0 : ℚ), (0 : ℚ))
    | some (blend0, islandType, params) =>
      if 0 < blend0 then
        let gridX : ℤ := round (nearestX / islandInterval)
        let gridZ : ℤ := round (nearestZ / islandInterval)
        let localRand := seededRandom M
          ((hash2D seed (gridX * 100000 + ⌊x⌋) (gridZ * 100000 + ⌊z⌋) : ℕ) : ℚ)
        if islandType = 0 then
          let (lr, _) := randNext M localRand
          (blend0, params.base
            + M.sin (x * 0.002) * M.cos (z * 0.002) * 4.0
            + M.sin (x * 0.01) * M.cos (z * 0.01) * 2.0
            + (lr - 0.5) * 1.0)
        else if islandType = 1 then
          let (lr, _) := randNext M localRand
          (blend0, params.base + params.jagged
            + M.sin (x * 0.01) * M.cos (z * 0.01) * 10.0
            + M.sin (x * 0.07 + z * 0.13) * 12.0
            + |M.sin (x * 0.1) * M.cos (z * 0.1)| * 18.0
            + (lr - 0.5) * 4.0)
        else if islandType = 2 then
          let (lr, _) := randNext M localRand
          (blend0, params.tall
            + M.sin (x * 0.005) * M.cos (z * 0.005) * 8.0
            + |M.sin (x * 0.02) * M.cos (z * 0.02)| * 10.0
            + (lr - 0.5) * 2.0)
        else if islandType = 3 then
          let (lr, _) := randNext M localRand
          (blend0, params.pillar
            + M.exp (-((x - nearestX) ^ 2 + (z - nearestZ) ^ 2) / (2 * 120 ^ 2)) * 60
            + |M.sin (x * 0.03) * M.cos (z * 0.03)| * 8.0
            + (lr - 0.5) * 2.0)
        else if islandType = 4 then
          let (lr, _) := randNext M localRand
          (M.pow blend0 0.6, params.base
            + M.sin (x * 0.002) * M.cos (z * 0.002) * 2.0
            + M.sin (x * 0.01) * M.cos (z * 0.01) * 1.0
            + (lr - 0.5) * 0.5)
        else if islandType = 5 then
          let archOffset : ℚ := 120
          let arch1 := M.exp (-((x - nearestX - archOffset) ^ 2 + (z - nearestZ) ^ 2) / (2 * 80 ^ 2)) * params.arch
          let arch2 := M.exp (-((x - nearestX + archOffset) ^ 2 + (z - nearestZ) ^ 2) / (2 * 80 ^ 2)) * params.arch
          let (lr, _) := randNext M localRand
          (blend0, arch1 + arch2 + M.sin (x * 0.01) * M.cos (z * 0.01) * 2.0 + (lr - 0.5) * 1.0)
        else
          let (lr, _) := randNext M localRand
          (blend0, params.spire
            + M.exp (-((x - nearestX) ^ 2 + (z - nearestZ) ^ 2) / (2 * 60 ^ 2)) * 100
            + |M.sin (x * 0.07) * M.cos (z * 0.07)| * 20.0
            + (lr - 0.5) * 3.0)
      else ((blend0, (0 : ℚ)))
  let (np, rP) := randNext M rP
  let normalHeight :=
    M.sin (x * 0.01) * M.cos (z * 0.01) * 3.0 +
    M.sin (x * 0.015 + z * 0.01) * 2.0 +
    M.sin (x * 0.03) * M.cos (z * 0.025) * 1.5 +
    M.cos (x * 0.025 + z * 0.035) * 1.2 +
    M.sin (x * 0.08) * M.cos (z * 0.06) * 0.6 +
    M.sin (x * 0.05 + z * 0.07) * 0.8 +
    (np - 0.5) * 0.5
  if 0 < deepBlend then deepHeight * deepBlend + normalHeight * (1 - deepBlend)
  else if 0 < islandBlend then islandHeight * islandBlend + normalHeight * (1 - islandBlend)
  else
    let (fp, _) := randNext M rP
    0 + M.sin (x * 0.01) * M.cos (z * 0.01) * 3.0
      + M.sin (x * 0.015 + z * 0.01) * 2.0
      + M.sin (x * 0.03) * M.cos (z * 0.025) * 1.5
      + M.cos (x * 0.025 + z * 0.035) * 1.2
      + M.sin (x * 0.08) * M.cos (z * 0.06) * 0.6
      + M.sin (x * 0.05 + z * 0.07) * 0.8
      + (fp - 0.5) * 0.5

/-- Chunk key: the integer pair behind the JS Map key string "x,z"
(the string encoding is injective on integer pairs). -/
abbrev ChunkKey := ℤ × ℤ

/-- A cached terrain chunk (the object returned by createTerrainChunk).
The mesh is modelled by its flat position array [x0, y0, z0, x1, ...];
none models the null mesh of a chunk created without a seed.  Indices,
colors and materials are rendering-only and are not modelled. -/
structure Chunk where
  mesh : Option (List ℚ)
  chunkX : ℤ
  chunkZ : ℤ
  originalHeights : List ℚ
deriving DecidableEq

/-- The fields of a UnifiedTerrain instance that the modelled operations
touch.  size / resolution / cellSize belong to the unused legacy
single-mesh path and are omitted; scene membership is rendering-only.
randX is the running scalar captured by this.rand.  regenSeed models
this._regenSeed, which is only read while a transition started by
regenerateTerrain is active, so its pre-transition null is collapsed
to 0. -/
structure TerrainState where
  wavePhase : ℚ
  waveSpeed : ℚ
  waveAmp : ℚ
  waveFreq : ℚ
  chunkSize : ℚ
  chunkResolution : ℕ
  renderDistance : ℚ
  terrainSeed : ℤ
  randX : ℚ
  terrainChunks : List (ChunkKey × Chunk)
  regenLerpActive : Bool
  regenLerpTime : ℚ
  regenLerpDuration : ℚ
  regenOldHeights : List (ChunkKey × List ℚ)
  regenNewHeights : List (ChunkKey × List ℚ)
  regenSeed : ℤ
deriving DecidableEq

/-- World coordinate of vertex grid index i of a chunk at chunk
coordinate c (createTerrainChunk, unifiedTerrain.js lines 96 and 112-113):
c * chunkSize + (i / chunkResolution) * chunkSize - chunkSize / 2. -/
def chunkVertexPos (st : TerrainState) (c : ℤ) (i : ℕ) : ℚ :=
  (c : ℚ) * st.chunkSize + (i : ℚ) / (st.chunkResolution : ℚ) * st.chunkSize - st.chunkSize / 2

/-- The (px, height, pz) triples pushed by the vertex loops of
createTerrainChunk (unifiedTerrain.js lines 109-118), z outer, x inner. -/
def chunkVerts (M : JSMath) (st : TerrainState) (cx cz : ℤ) : List (ℚ × ℚ × ℚ) :=
  (List.range (st.chunkResolution + 1)).flatMap fun zi =>
    (List.range (st.chunkResolution + 1)).map fun xi =>
      let px := chunkVertexPos st cx xi
      let pz := chunkVertexPos st cz zi
      (px, generateTerrainHeight M st.terrainSeed px pz, pz)

/-- createTerrainChunk from unifiedTerrain.js lines 89-203.  Without a
truthy seed it returns the empty chunk with a null mesh (lines 100-107);
otherwise the mesh position array is the flattened vertex list and
originalHeights is vertices.filter(index % 3 === 1), i.e. the height
component of each pushed triple. -/
def createTerrainChunk (M : JSMath) (st : TerrainState) (cx cz : ℤ) : Chunk :=
  if st.terrainSeed = 0 then ⟨none, cx, cz, []⟩
  else
    let verts := chunkVerts M st cx cz
    ⟨some (verts.flatMap fun v => [v.1, v.2.1, v.2.2]), cx, cz, verts.map fun v => v.2.1⟩

/-- The distance test of updateTerrainChunks (unifiedTerrain.js lines
976-978): Math.sqrt(dx*dx + dz*dz) * chunkSize <= renderDistance, written
in its squared form, which is equivalent over the reals whenever
chunkSize is nonnegative. -/
def withinRender (st : TerrainState) (dx dz : ℤ) : Bool :=
  decide (0 ≤ st.renderDistance) &&
  decide (((dx * dx + dz * dz : ℤ) : ℚ) * st.chunkSize ^ 2 ≤ st.renderDistance ^ 2)

/-- The required chunk keys of updateTerrainChunks (lines 963-989): the
player's chunk is the floor of the reference point over chunkSize, the
loop radius is the ceiling of renderDistance over chunkSize, and a key is
required when the scaled offset distance passes the render test.  Listed
in loop order: dx outer, dz inner. -/
def requiredKeys (st : TerrainState) (px pz : ℚ) : List ChunkKey :=
  let pcx : ℤ := ⌊px / st.chunkSize⌋
  let pcz : ℤ := ⌊pz / st.chunkSize⌋
  let r : ℤ := ⌈st.renderDistance / st.chunkSize⌉
  (intRange (-r) r).flatMap fun dx =>
    (intRange (-r) r).filterMap fun dz =>
      if withinRender st dx dz then some (pcx + dx, pcz + dz) else none

/-- Creation loop of updateTerrainChunks (lines 982-986): each required
key absent from the Map is created and appended in required order. -/
def ensureChunks (M : JSMath) (st : TerrainState) (req : List ChunkKey)
    (m : List (ChunkKey × Chunk)) : List (ChunkKey × Chunk) :=
  req.foldl (fun m k =>
    if (assocFind k m).isSome then m
    else m ++ [(k, createTerrainChunk M st k.1 k.2)]) m

/-- updateTerrainChunks from unifiedTerrain.js lines 963-1005: create all
missing required chunks, then evict every cached chunk whose key is not
required.  The eviction path dereferences chunk.mesh.geometry without a
null check (line 997); evicting a null-mesh chunk throws, modelled as
none. -/
def updateTerrainChunks (M : JSMath) (st : TerrainState) (px pz : ℚ) :
    Option TerrainState :=
  let required := requiredKeys st px pz
  let afterCreate := ensureChunks M st required st.terrainChunks
  if afterCreate.all (fun e => decide (e.1 ∈ required) || e.2.mesh.isSome) then
    some { st with terrainChunks := afterCreate.filter (fun e => decide (e.1 ∈ required)) }
  else none

/-- Wave displacement of animateTerrainChunks (lines 1022-1024) at world
coordinates (x, z) under the current wave phase. -/
def waveHeightAt (M : JSMath) (st : TerrainState) (x z : ℚ) : ℚ :=
  M.sin (x * st.waveFreq + z * st.waveFreq + st.wavePhase) * st.waveAmp +
  M.cos (x * st.waveFreq * 1.3 + st.wavePhase * 1.2) * st.waveAmp * 0.6

/-- Vertex loop of animateTerrainChunks (lines 1014-1028): for each
i < originalHeights.length set position index 3 i + 1 to the original
height plus the wave displacement read at the x and z components. -/
def animateWrite (M : JSMath) (st : TerrainState) (base : List ℚ)
    (ps : List ℚ) : List ℚ :=
  (List.range base.length).foldl (fun a i =>
    a.set (3 * i + 1)
      (base.getD i 0 + waveHeightAt M st (a.getD (3 * i) 0) (a.getD (3 * i + 2) 0))) ps

/-- animateTerrainChunks from unifiedTerrain.js lines 1007-1033; chunks
without a mesh are skipped by the guard on line 1009. -/
def animateTerrainChunks (M : JSMath) (st : TerrainState) : TerrainState :=
  { st with terrainChunks := st.terrainChunks.map fun e =>
      match e.2.mesh with
      | none => e
      | some ps => (e.1, { e.2 with mesh := some (animateWrite M st e.2.originalHeights ps) }) }

/-- Vertex loop of the regeneration lerp (update, lines 793-797): for each
i < n set position index 3 i + 1 to oldH + (newH - oldH) * t.  Writes past
the end of the position array are dropped, as Float32Array writes are. -/
def writeLerped (t : ℚ) (olds news ps : List ℚ) (n : ℕ) : List ℚ :=
  (List.range n).foldl (fun a i =>
    a.set (3 * i + 1) (olds.getD i 0 + (news.getD i 0 - olds.getD i 0) * t)) ps

/-- Lerp of one chunk inside update (lines 791-800).  Dereferencing a
null mesh (line 792) throws; a missing old- or new-heights table entry
throws at the first loop iteration (lines 794-795), so it is harmless
only when the chunk has no vertices. -/
def lerpChunk1 (old new : List (ChunkKey × List ℚ)) (t : ℚ)
    (k : ChunkKey) (c : Chunk) : Option Chunk :=
  match c.mesh with
  | none => none
  | some ps =>
    if c.originalHeights.length = 0 then some c
    else
      match assocFind k old with
      | none => none
      | some olds =>
        match assocFind k new with
        | none => none
        | some news =>
          some { c with mesh := some (writeLerped t olds news ps c.originalHeights.length) }

/-- Per-chunk lerp loop of update (lines 791-800) over the cached
chunks. -/
def lerpChunks (old new : List (ChunkKey × List ℚ)) (t : ℚ) :
    List (ChunkKey × Chunk) → Option (List (ChunkKey × Chunk))
  | [] => some []
  | (k, c) :: rest =>
    match lerpChunk1 old new t k c with
    | none => none
    | some c' =>
      match lerpChunks old new t rest with
      | none => none
      | some rest' => some ((k, c') :: rest')

/-- Baseline adoption for one chunk at the end of the transition (update,
lines 806-810): originalHeights[i] := _regenNewHeights[chunkKey][i] for
each i < originalHeights.length; a missing table entry throws at the
first iteration, so it is harmless only when the chunk has no
vertices. -/
def finishChunk1 (new : List (ChunkKey × List ℚ)) (k : ChunkKey)
    (c : Chunk) : Option Chunk :=
  if c.originalHeights.length = 0 then some c
  else
    match assocFind k new with
    | some news =>
      some { c with originalHeights :=
        (List.range c.originalHeights.length).map fun i => news.getD i 0 }
    | none => none

/-- Baseline adoption loop at the end of the transition (update, lines
806-810) over the cached chunks. -/
def finishChunks (new : List (ChunkKey × List ℚ)) :
    List (ChunkKey × Chunk) → Option (List (ChunkKey × Chunk))
  | [] => some []
  | (k, c) :: rest =>
    match finishChunk1 new k c with
    | none => none
    | some c' =>
      match finishChunks new rest with
      | none => none
      | some rest' => some ((k, c') :: rest')

/-- The regeneration-lerp block of update (unifiedTerrain.js lines
788-813): advance the elapsed time, clamp t, lerp every cached vertex,
and on t >= 1 adopt the new baselines, install the pending seed, reseed
this.rand and clear the transition. -/
def regenLerpStep (M : JSMath) (st : TerrainState) (dt : ℚ) : Option TerrainState :=
  if st.regenLerpActive then
    let time := st.regenLerpTime + dt
    let t := min 1 (time / st.regenLerpDuration)
    (lerpChunks st.regenOldHeights st.regenNewHeights t st.terrainChunks).bind fun chunks1 =>
      if 1 ≤ t then
        (finishChunks st.regenNewHeights chunks1).map fun chunks2 =>
          { st with terrainChunks := chunks2, regenLerpTime := time,
                    terrainSeed := st.regenSeed,
                    randX := scrambleStep M (st.regenSeed : ℚ),
                    regenLerpActive := false }
      else some { st with terrainChunks := chunks1, regenLerpTime := time }
  else some st

/-- Table construction of regenerateTerrain (lines 820-831): per cached
chunk, store the current originalHeights and the freshly computed heights
under the new seed at the x and z components of each vertex.  Reading the
position array of a null mesh (line 824) throws. -/
def regenTables (M : JSMath) (newSeed : ℤ) :
    List (ChunkKey × Chunk) →
    Option (List (ChunkKey × List ℚ) × List (ChunkKey × List ℚ))
  | [] => some ([], [])
  | (k, c) :: rest => do
    let ps ← c.mesh
    let news := (List.range c.originalHeights.length).map fun i =>
      generateTerrainHeightWithSeed M (ps.getD (3 * i) 0) (ps.getD (3 * i + 2) 0) newSeed
    let (oldT, newT) ← regenTables M newSeed rest
    some ((k, c.originalHeights) :: oldT, (k, news) :: newT)

/-- regenerateTerrain from unifiedTerrain.js lines 816-836: build the old
and new height tables over the cached chunks and activate the transition
with elapsed time 0. -/
def regenerateTerrain (M : JSMath) (st : TerrainState) (newSeed : ℤ)
    (duration : ℚ) : Option TerrainState :=
  (regenTables M newSeed st.terrainChunks).map fun tables =>
    { st with regenOldHeights := tables.1, regenNewHeights := tables.2,
              regenSeed := newSeed, regenLerpTime := 0,
              regenLerpDuration := duration, regenLerpActive := true }

/-- setTerrainSeedAndRegenerate from unifiedTerrain.js lines 63-83: remove
every cached chunk, clear the Map, adopt the seed, reseed this.rand, and
regenerate smoothly if chunks still exist - the size test runs after the
clear, exactly as in the source. -/
def setTerrainSeedAndRegenerate (M : JSMath) (st : TerrainState) (seed : ℤ)
    (duration : ℚ) : Option TerrainState :=
  let st1 := { st with terrainChunks := [] }
  let st2 := { st1 with terrainSeed := seed, randX := scrambleStep M (seed : ℚ) }
  if 0 < st2.terrainChunks.length then regenerateTerrain M st2 seed duration
  else some st2

/-- onHostSeedReceived from unifiedTerrain.js lines 16-19: delegates to
setTerrainSeedAndRegenerate. -/
def onHostSeedReceived (M : JSMath) (st : TerrainState) (hostSeed : ℤ)
    (duration : ℚ) : Option TerrainState :=
  setTerrainSeedAndRegenerate M st hostSeed duration

/-- update from unifiedTerrain.js lines 780-814: advance the wave phase,
stream chunks around the reference point, animate the waves, then run the
regeneration lerp if one is active. -/
def update (M : JSMath) (st : TerrainState) (deltaTime : ℚ) (px pz : ℚ) :
    Option TerrainState :=
  let st0 := { st with wavePhase := st.wavePhase + deltaTime * st.waveSpeed }
  (updateTerrainChunks M st0 px pz).bind fun st1 =>
    regenLerpStep M (animateTerrainChunks M st1) deltaTime

/-- The leader-side session state of networkWorker.js: the roster
lobbyConnectedPeers (leader first, join order), the tracked connection
table lobbyPeerConnections (connections named by distinct numeric ids,
keys in insertion order as for a JS object), the lobbyFull flag and the
configured capacity LOBBY_SIZE. -/
structure LobbyState where
  myPeerId : String
  lobbySize : ℕ
  roster : List String
  conns : List (String × ℕ)
  full : Bool
deriving DecidableEq

/-- JS object assignment conns[pid] = c: replace in place if the key
exists, otherwise append. -/
def connsSet (pid : String) (c : ℕ) : List (String × ℕ) → List (String × ℕ)
  | [] => [(pid, c)]
  | (p, v) :: rest => if p = pid then (pid, c) :: rest else (p, v) :: connsSet pid c rest

/-- JS delete conns[pid]: drop the entry with that key. -/
def connsDelete (pid : String) : List (String × ℕ) → List (String × ℕ)
  | [] => []
  | (p, v) :: rest => if p = pid then rest else (p, v) :: connsDelete pid rest

/-- Remove the first occurrence of pid, the indexOf plus splice of the
close handler (networkWorker.js lines 173-174); no effect when absent. -/
def removeFirst (pid : String) : List String → List String
  | [] => []
  | p :: rest => if p = pid then rest else p :: removeFirst pid rest

/-- Roster initialization of tryBecomeBase (networkWorker.js lines
64-67): the claimant becomes leader with roster [self], no tracked
connections, epoch not full. -/
def initLeader (myId : String) (size : ℕ) : LobbyState :=
  ⟨myId, size, [myId], [], false⟩

/-- Leader handling of a join_host message (networkWorker.js lines
111-149) received on connection conn claiming identity pid; openP tells
which connections are open at handling time.  A duplicate join from a
different connection while the tracked one is open is rejected with
waiting; otherwise the identity is appended to the roster if absent, the
connection is tracked unless a tracked open one exists, and the full flag
is raised exactly when the roster length reaches LOBBY_SIZE.  The source
performs no capacity check on this path. -/
def handleJoinHost (openP : ℕ → Bool) (conn : ℕ) (pid : String)
    (s : LobbyState) : LobbyState :=
  let tracked := assocFind pid s.conns
  let dupReject := decide (pid ∈ s.roster) &&
    (match tracked with
     | some c => decide (c ≠ conn) && openP c
     | none => false)
  if dupReject then s
  else
    let roster1 := if pid ∈ s.roster then s.roster else s.roster ++ [pid]
    let conns1 :=
      match tracked with
      | some c => if openP c then s.conns else connsSet pid conn s.conns
      | none => connsSet pid conn s.conns
    if roster1.length = s.lobbySize then
      { s with roster := roster1, conns := conns1, full := true }
    else
      { s with roster := roster1, conns := conns1 }

/-- Leader handling of a tracked connection's close event
(networkWorker.js lines 161-189): find the identity whose tracked
connection is the closing one; remove it from the roster and the
connection table only if it is still the tracked connection for that
identity, and reopen a full epoch. -/
def handleConnClose (conn : ℕ) (s : LobbyState) : LobbyState :=
  match s.conns.find? (fun e => decide (e.2 = conn)) with
  | none => s
  | some (pid, _) =>
    if assocFind pid s.conns = some conn then
      { s with roster := removeFirst pid s.roster,
               conns := connsDelete pid s.conns,
               full := if s.full then false else s.full }
    else s

/-- Reply of the rendezvous holder to a discovery join (networkWorker.js
lines 76-91): lobby_full when the epoch is full or at capacity, otherwise
a redirect to the host; the roster is not modified. -/
inductive DiscoveryReply
  | lobbyFull
  | redirectToHost (hostId : String) (currentPlayers totalPlayers : ℕ)
deriving DecidableEq

/-- handleDiscoveryJoin: the state is returned unchanged together with
the reply. -/
def handleDiscoveryJoin (s : LobbyState) : LobbyState × DiscoveryReply :=
  if s.full || decide (s.lobbySize ≤ s.roster.length) then (s, .lobbyFull)
  else (s, .redirectToHost s.myPeerId s.roster.length s.lobbySize)

/-- Relay fan-out of the leader for a message or player_state packet
(networkWorker.js lines 150-159): the identities of the tracked open
connections other than the packet's sender field, in table order. -/
def relayRecipients (openP : ℕ → Bool) (sender : String) (s : LobbyState) :
    List String :=
  ((s.conns.filter fun e => decide (e.1 ≠ sender) && openP e.2).map Prod.fst)

/-! Concrete interpretations and states used for evaluating the model on
closed inputs. -/

/-- A concrete interpretation of the ambient math library in which every
transcendental returns 0 (and pi is 0). Since the embedding treats these
functions as parameters, any interpretation is admissible; this one keeps
closed evaluations small. -/
def jsMathZero : JSMath :=
  ⟨fun _ => 0, fun _ => 0, fun _ => 0, fun _ => 0, fun _ _ => 0, 0⟩

/-- A cached chunk with a mesh of one vertex, for exercising
setTerrainSeedAndRegenerate on a non-empty cache. -/
def c1Chunk : Chunk := ⟨some [0, 1, 0], 0, 0, [1]⟩

/-- A state caching one chunk, prior seed 7 and no active transition. -/
def c1State : TerrainState :=
  ⟨0, 0.8, 0.15, 0.4, 200, 32, 3200, 7, 0, [((0, 0), c1Chunk)], false, 0, 0, [], [], 0⟩

/-- A streaming configuration with the spec's example parameters: chunk
size 100, render distance 150, the nine chunks of the 3 x 3 block around
the origin already cached (as bare cached objects with a mesh). -/
def streamState : TerrainState :=
  ⟨0, 0.8, 0.15, 0.4, 100, 1, 150, 1, 0,
   [((-1, -1), ⟨some [], -1, -1, []⟩), ((-1, 0), ⟨some [], -1, 0, []⟩),
    ((-1, 1), ⟨some [], -1, 1, []⟩), ((0, -1), ⟨some [], 0, -1, []⟩),
    ((0, 0), ⟨some [], 0, 0, []⟩), ((0, 1), ⟨some [], 0, 1, []⟩),
    ((1, -1), ⟨some [], 1, -1, []⟩), ((1, 0), ⟨some [], 1, 0, []⟩),
    ((1, 1), ⟨some [], 1, 1, []⟩)],
   false, 0, 0, [], [], 0⟩

/-- Follows the spec's words, for comparison with the code's key set: a
key is required when the chunk-center-to-reference Euclidean distance is
at most renderDistance; the chunk at key (cx, cz) is centered at
(cx * chunkSize, cz * chunkSize), and the comparison is written in its
squared form, exact over the reals. -/
def specCenterWithin (st : TerrainState) (px pz : ℚ) (k : ChunkKey) : Prop :=
  0 ≤ st.renderDistance ∧
  ((k.1 : ℚ) * st.chunkSize - px) ^ 2 + ((k.2 : ℚ) * st.chunkSize - pz) ^ 2 ≤
    st.renderDistance ^ 2

instance (st : TerrainState) (px pz : ℚ) (k : ChunkKey) :
    Decidable (specCenterWithin st px pz k) := by
  unfold specCenterWithin
  infer_instance

/-- An empty cache with terrain seed 0 and render distance 0, chunk size
100: the configuration in which stream updates must create nothing. -/
def zeroSeedState : TerrainState :=
  ⟨0, 0.8, 0.15, 0.4, 100, 1, 0, 0, 0, [], false, 0, 0, [], [], 0⟩

/-- A state caching one null-mesh chunk at key (5, 5), outside the
required set of render distance 0, so the next update must evict it. -/
def nullMeshEvictState : TerrainState :=
  ⟨0, 0.8, 0.15, 0.4, 100, 1, 0, 0, 0, [((5, 5), ⟨none, 5, 5, []⟩)], false, 0, 0, [], [], 0⟩

/-- An empty cache with seed 1 and render distance 0: every cached chunk
(vacuously) is well-formed, and one update creates the single chunk at
the origin. -/
def wfDemoState : TerrainState :=
  ⟨0, 0.8, 0.15, 0.4, 100, 1, 0, 1, 0, [], false, 0, 0, [], [], 0⟩

/-- A one-chunk state in an active transition with duration 1: one cached
vertex of old height 3, pending new height 10, mesh positions
[7, 3, 9]. -/
def regenDemoState : TerrainState :=
  ⟨0, 0, 0, 0, 100, 1, 0, 1, 0, [((0, 0), ⟨some [7, 3, 9], 0, 0, [3]⟩)],
   true, 0, 1, [((0, 0), [3])], [((0, 0), [10])], 42⟩

/-- The state after one update of regenDemoState with deltaTime 1/2: the
vertex height becomes 3 + (10 - 3) * (1/2) = 13/2 and the elapsed time
becomes 1/2. -/
def regenDemoStateAfter : TerrainState :=
  ⟨0, 0, 0, 0, 100, 1, 0, 1, 0, [((0, 0), ⟨some [7, 13/2, 9], 0, 0, [3]⟩)],
   true, 1/2, 1, [((0, 0), [3])], [((0, 0), [10])], 42⟩

/-! Helper lemmas. -/

theorem assocFind_some_mem {α β : Type} [DecidableEq α] {k : α} {v : β} :
    ∀ {l : List (α × β)}, assocFind k l = some v → (k, v) ∈ l := by
  intro l
  induction l with
  | nil => intro h; simp [assocFind] at h
  | cons e rest ih =>
    obtain ⟨a, b⟩ := e
    intro h
    rw [assocFind] at h
    by_cases hak : a = k
    · rw [if_pos hak] at h
      obtain rfl := Option.some.inj h
      subst hak
      exact List.mem_cons_self _ _
    · rw [if_neg hak] at h
      exact List.mem_cons_of_mem _ (ih h)

theorem assocFind_of_nodup_mem {α β : Type} [DecidableEq α]
    {l : List (α × β)} (hnd : (l.map Prod.fst).Nodup) {k : α} {v : β}
    (hm : (k, v) ∈ l) : assocFind k l = some v := by
  induction l with
  | nil => simp at hm
  | cons e rest ih =>
    simp only [List.map_cons, List.nodup_cons] at hnd
    rcases List.mem_cons.mp hm with h | h
    · rw [← h, assocFind, if_pos rfl]
    · have hke : e.1 ≠ k := by
        intro he
        exact hnd.1 (he ▸ (List.mem_map.mpr ⟨(k, v), h, rfl⟩))
      rw [assocFind, if_neg hke]
      exact ih hnd.2 h

theorem assocFind_isSome_iff {α β : Type} [DecidableEq α] {k : α} :
    ∀ {l : List (α × β)}, (assocFind k l).isSome = true ↔ k ∈ l.map Prod.fst := by
  intro l
  induction l with
  | nil => simp [assocFind]
  | cons e rest ih =>
    rw [assocFind]
    by_cases he : e.1 = k
    · simp [if_pos he, he]
    · simp only [if_neg he, ih, List.map_cons, List.mem_cons]
      constructor
      · exact fun h => Or.inr h
      · rintro (h | h)
        · exact absurd h.symm he
        · exact h

theorem removeFirst_mem_of_ne {pid q : String} (hne : q ≠ pid) :
    ∀ {l : List String}, q ∈ removeFirst pid l ↔ q ∈ l := by
  intro l
  induction l with
  | nil => simp [removeFirst]
  | cons p rest ih =>
    rw [removeFirst]
    by_cases hp : p = pid
    · rw [if_pos hp]
      simp only [List.mem_cons]
      constructor
      · exact fun h => Or.inr h
      · rintro (h | h)
        · exact absurd (h.trans hp) hne
        · exact h
    · rw [if_neg hp]
      simp [ih]

theorem intRange_mem {a b x : ℤ} : x ∈ intRange a b ↔ a ≤ x ∧ x ≤ b := by
  constructor
  · intro hx
    obtain ⟨i, hi, rfl⟩ := List.mem_map.mp hx
    rw [List.mem_range] at hi
    omega
  · rintro ⟨h1, h2⟩
    exact List.mem_map.mpr ⟨(x - a).toNat, List.mem_range.mpr (by omega), by omega⟩

/-! Claim C8: the pseudo-random stream at seed exactly zero. -/

/-- C8.  Every draw from the stream returned by seededRandom with seed
exactly 0 equals 0, at every index: under the ECMAScript guarantee
Math.sin(+0) = +0, the zero seed scrambles to the fixed point 0 of the
scrambling step, every running scalar stays 0, and every draw, the
fractional part of the scalar, is 0.  Re-instantiating with the same seed
is modelled by the same pure function, so reproducibility is
definitional. -/
theorem randomStream_zero_seed_constant (M : JSMath) (h0 : M.sin 0 = 0) :
    scrambleStep M 0 = 0 ∧ (∀ n, randIter M 0 n = 0) ∧ ∀ n, randStream M 0 n = 0 := by
  have hs : scrambleStep M 0 = 0 := by simp [scrambleStep, h0]
  have hiter : ∀ n, randIter M 0 n = 0 := by
    intro n
    induction n with
    | zero => simpa [randIter] using hs
    | succ n ih => rw [randIter, ih]; exact hs
  refine ⟨hs, hiter, fun n => ?_⟩
  simp [randStream, hiter]

/-- C8 witness: the concrete interpretation jsMathZero has sin 0 = 0;
evaluated at draw index 5. -/
theorem randomStream_zero_seed_constant_witness :
    jsMathZero.sin 0 = 0 ∧ randStream jsMathZero 0 5 = 0 :=
  ⟨rfl, (randomStream_zero_seed_constant jsMathZero rfl).2.2 5⟩

/-! Claim C1: the seed-synchronization entry point clears the cache
before testing whether chunks exist, so the regeneration branch is dead
and no interpolating transition is ever started by it. -/

/-- C1.  For every state with at least one cached chunk, the call
setTerrainSeedAndRegenerate(seed, duration) (the body of
onHostSeedReceived) empties the chunk cache and adopts the seed, and all
transition bookkeeping fields keep their previous values: the
size-greater-than-zero test runs after the Map was cleared, so
regenerateTerrain is never invoked and no height set is computed.  This
contradicts the claimed behavior (and the source's own comment on line
78), which expects an interpolating regeneration of the cached chunks. -/
theorem setSeed_discards_chunks_and_starts_no_transition (M : JSMath)
    (st : TerrainState) (seed : ℤ) (duration : ℚ)
    (_hne : st.terrainChunks ≠ []) :
    onHostSeedReceived M st seed duration =
      some { st with terrainChunks := [], terrainSeed := seed,
                     randX := scrambleStep M (seed : ℚ) } := by
  simp [onHostSeedReceived, setTerrainSeedAndRegenerate]

/-- C1 witness: a state caching one chunk; the call returns with the
cache empty, the seed adopted and the transition flag still off. -/
theorem setSeed_discards_chunks_witness :
    c1State.terrainChunks ≠ [] ∧
    onHostSeedReceived jsMathZero c1State 42 1 =
      some { c1State with terrainChunks := [], terrainSeed := 42,
                          randX := scrambleStep jsMathZero (42 : ℚ) } :=
  ⟨by decide,
   setSeed_discards_chunks_and_starts_no_transition jsMathZero c1State 42 1 (by decide)⟩

/-! Claim C2: the roster capacity invariant.  The join_host handler has
no capacity check, so a direct join_host on a full epoch grows the roster
past LOBBY_SIZE. -/

/-- C2.  Counter-evidence for the capacity invariant: with capacity 2,
leader A and direct join_host requests from B and then C (distinct
connections), the code pushes C with no capacity test; the resulting
reachable state has roster [A, B, C] of length 3 > 2 with the full flag
still raised, violating both halves of the claimed invariant. -/
theorem joinHost_overfills_roster :
    (handleJoinHost (fun _ => true) 2 "C"
      (handleJoinHost (fun _ => true) 1 "B" (initLeader "A" 2))).roster = ["A", "B", "C"] ∧
    (handleJoinHost (fun _ => true) 2 "C"
      (handleJoinHost (fun _ => true) 1 "B" (initLeader "A" 2))).full = true ∧
    ¬ ((handleJoinHost (fun _ => true) 2 "C"
      (handleJoinHost (fun _ => true) 1 "B" (initLeader "A" 2))).roster.length ≤
        (handleJoinHost (fun _ => true) 2 "C"
          (handleJoinHost (fun _ => true) 1 "B" (initLeader "A" 2))).lobbySize) ∧
    ¬ ((handleJoinHost (fun _ => true) 2 "C"
      (handleJoinHost (fun _ => true) 1 "B" (initLeader "A" 2))).full = true ↔
        (handleJoinHost (fun _ => true) 2 "C"
          (handleJoinHost (fun _ => true) 1 "B" (initLeader "A" 2))).roster.length =
        (handleJoinHost (fun _ => true) 2 "C"
          (handleJoinHost (fun _ => true) 1 "B" (initLeader "A" 2))).lobbySize) := by
  decide

/-! Claim C7: leader relay fan-out. -/

/-- C7.  For every lobby state, sender identity and open-connection
predicate, the relay recipients of a message or player_state packet are
exactly the identities with a tracked open connection that differ from
the packet's sender, and the sender is never among them (no echo). -/
theorem relay_targets_all_others_never_sender (openP : ℕ → Bool)
    (sender : String) (s : LobbyState) :
    (∀ pid, pid ∈ relayRecipients openP sender s ↔
      pid ≠ sender ∧ ∃ c, (pid, c) ∈ s.conns ∧ openP c = true) ∧
    sender ∉ relayRecipients openP sender s := by
  have hmem : ∀ pid, pid ∈ relayRecipients openP sender s ↔
      pid ≠ sender ∧ ∃ c, (pid, c) ∈ s.conns ∧ openP c = true := by
    intro pid
    simp only [relayRecipients, List.mem_map, List.mem_filter, Bool.and_eq_true,
      decide_eq_true_eq]
    constructor
    · rintro ⟨⟨p, c⟩, ⟨hm, hne, hop⟩, rfl⟩
      exact ⟨hne, c, hm, hop⟩
    · rintro ⟨hne, c, hm, hop⟩
      exact ⟨(pid, c), ⟨hm, hne, hop⟩, rfl⟩
  refine ⟨hmem, fun h => ?_⟩
  exact ((hmem sender).mp h).1 rfl

/-! Claim C5: the trench carving pass is not a max-depth selection. -/

unseal Rat.add Rat.mul Rat.inv Rat.sub Rat.ofScientific in
/-- C5 counterexample.  Two containing candidates (blend 1/2, depth -100)
and (blend 9/10, depth -10) over pre-trench height 0: the source's
accumulation yields -14, while the deepest blended result is -50, and
visiting the same candidates in the opposite order yields -109/2 - the
rule is neither deepest-wins nor order-independent. -/
theorem trenchPass_not_deepest_nor_order_independent :
    trenchPass 0 [((1 : ℚ)/2, -100), ((9 : ℚ)/10, -10)] ≠
      specDeepestTrenchResult 0 [((1 : ℚ)/2, -100), ((9 : ℚ)/10, -10)] ∧
    trenchPass 0 [((1 : ℚ)/2, -100), ((9 : ℚ)/10, -10)] ≠
      trenchPass 0 [((9 : ℚ)/10, -10), ((1 : ℚ)/2, -100)] := by
  decide

/-- C5 as amended.  The trench pass folds the containing candidates in
visit order through trenchSelect; with a single containing candidate of
nonnegative blend the result is exactly that candidate's blended value
(agreeing with the spec in the one-candidate case), and the pass never
raises the height above the pre-trench height as long as every
candidate's blend lies in the unit interval and its depth does not exceed
that height. -/
theorem trenchPass_accumulator_semantics :
    (∀ (h : ℚ) (c : ℚ × ℚ), 0 ≤ c.1 →
      trenchPass h [c] = c.2 * c.1 + h * (1 - c.1)) ∧
    (∀ (h : ℚ) (cands : List (ℚ × ℚ)),
      (∀ c ∈ cands, 0 ≤ c.1 ∧ c.1 ≤ 1 ∧ c.2 ≤ h) → trenchPass h cands ≤ h) := by
  constructor
  · intro h c hc
    simp only [trenchPass, List.foldl_cons, List.foldl_nil, trenchSelect]
    split
    · rfl
    · rename_i hcond
      push_neg at hcond
      have h1 : c.1 = 0 := le_antisymm hcond.1 hc
      rw [h1]
      ring
  · intro h cands hc
    have key : ∀ (l : List (ℚ × ℚ)) (acc : ℚ × ℚ),
        (∀ c ∈ l, 0 ≤ c.1 ∧ c.1 ≤ 1 ∧ c.2 ≤ h) → acc.2 ≤ h →
        (l.foldl trenchSelect acc).2 ≤ h := by
      intro l
      induction l with
      | nil => intro acc _ hacc; exact hacc
      | cons c cs ih =>
        intro acc hl hacc
        rw [List.foldl_cons]
        apply ih _ (fun d hd => hl d (List.mem_cons_of_mem _ hd))
        have hcc := hl c (List.mem_cons_self _ _)
        rw [trenchSelect]
        split
        · have p1 : 0 ≤ (h - c.2) * c.1 :=
            mul_nonneg (sub_nonneg.mpr hcc.2.2) hcc.1
          have p2 : 0 ≤ (h - acc.2) * (1 - c.1) :=
            mul_nonneg (sub_nonneg.mpr hacc) (sub_nonneg.mpr hcc.2.1)
          dsimp only
          nlinarith [p1, p2]
        · exact hacc
    exact key cands (0, h) hc (le_refl h)

unseal Rat.add Rat.mul Rat.inv Rat.sub Rat.ofScientific in
/-- C5 amended witness: the singleton case at blend 1/2, depth -100 over
height 0 gives the blended value -50, and the bound holds on the
two-candidate list of the counterexample. -/
theorem trenchPass_accumulator_semantics_witness :
    ((0 : ℚ) ≤ ((1 : ℚ)/2, (-100 : ℚ)).1 ∧
      (∀ c ∈ [((1 : ℚ)/2, (-100 : ℚ)), ((9 : ℚ)/10, (-10 : ℚ))],
        0 ≤ c.1 ∧ c.1 ≤ 1 ∧ c.2 ≤ (0 : ℚ))) ∧
    trenchPass 0 [((1 : ℚ)/2, (-100 : ℚ))] =
      (-100 : ℚ) * ((1 : ℚ)/2) + 0 * (1 - (1 : ℚ)/2) ∧
    trenchPass 0 [((1 : ℚ)/2, (-100 : ℚ)), ((9 : ℚ)/10, (-10 : ℚ))] ≤ 0 :=
  ⟨⟨by decide, by decide⟩,
   trenchPass_accumulator_semantics.1 0 ((1 : ℚ)/2, -100) (by decide),
   trenchPass_accumulator_semantics.2 0 _ (by decide)⟩

/-! Claim C6: connection-close handling of the leader. -/

/-- C6.  First part: if the closing connection is not the one currently
tracked for an identity, that identity's roster membership is unchanged
(a replaced connection's close event never evicts).  Second part: when a
tracked connection of a full epoch closes, the full flag reverts to
false.  Third part: the concrete reopening scenario with capacity 2 -
roster [A, B] full, B's connection closes leaving [A] not full, then a
join_host from C restores capacity with roster [A, C]. -/
theorem handleConnClose_not_found {conn : ℕ} {s : LobbyState}
    (hfind : s.conns.find? (fun e => decide (e.2 = conn)) = none) :
    handleConnClose conn s = s := by
  rw [handleConnClose, hfind]

theorem handleConnClose_found {conn : ℕ} {s : LobbyState} {p : String} {v : ℕ}
    (hfind : s.conns.find? (fun e => decide (e.2 = conn)) = some (p, v))
    (htracked : assocFind p s.conns = some conn) :
    handleConnClose conn s =
      { s with roster := removeFirst p s.roster, conns := connsDelete p s.conns,
               full := if s.full then false else s.full } := by
  rw [handleConnClose, hfind]
  simp [htracked]

theorem connClose_tracked_only_and_reopens :
    (∀ (s : LobbyState) (conn : ℕ) (pid : String),
      (s.conns.map Prod.fst).Nodup → assocFind pid s.conns ≠ some conn →
      (pid ∈ (handleConnClose conn s).roster ↔ pid ∈ s.roster)) ∧
    (∀ (s : LobbyState) (conn : ℕ) (pid : String),
      (s.conns.map Prod.fst).Nodup → (pid, conn) ∈ s.conns → s.full = true →
      (handleConnClose conn s).full = false) ∧
    ((handleJoinHost (fun _ => true) 1 "B" (initLeader "A" 2)).roster = ["A", "B"] ∧
     (handleJoinHost (fun _ => true) 1 "B" (initLeader "A" 2)).full = true ∧
     (handleConnClose 1 (handleJoinHost (fun _ => true) 1 "B" (initLeader "A" 2))).roster = ["A"] ∧
     (handleConnClose 1 (handleJoinHost (fun _ => true) 1 "B" (initLeader "A" 2))).full = false ∧
     (handleJoinHost (fun _ => true) 2 "C"
       (handleConnClose 1 (handleJoinHost (fun _ => true) 1 "B" (initLeader "A" 2)))).roster = ["A", "C"] ∧
     (handleJoinHost (fun _ => true) 2 "C"
       (handleConnClose 1 (handleJoinHost (fun _ => true) 1 "B" (initLeader "A" 2)))).full = true) := by
  refine ⟨?_, ?_, by decide⟩
  · intro s conn pid hnd hne
    cases hfind : s.conns.find? (fun e => decide (e.2 = conn)) with
    | none => rw [handleConnClose_not_found hfind]
    | some e =>
      obtain ⟨p, v⟩ := e
      have hv : v = conn := by
        have := List.find?_some hfind
        simpa using this
      have hmem := List.mem_of_find?_eq_some hfind
      have hfind2 : assocFind p s.conns = some conn :=
        hv ▸ assocFind_of_nodup_mem hnd hmem
      rw [handleConnClose_found hfind hfind2]
      have hpp : pid ≠ p := fun he => hne (he ▸ hfind2)
      exact removeFirst_mem_of_ne hpp
  · intro s conn pid hnd hmem hfull
    have hsome : (s.conns.find? (fun e => decide (e.2 = conn))).isSome := by
      rw [List.find?_isSome]
      exact ⟨(pid, conn), hmem, by simp⟩
    obtain ⟨⟨p, v⟩, hfind⟩ := Option.isSome_iff_exists.mp hsome
    have hv : v = conn := by
      have := List.find?_some hfind
      simpa using this
    have hmem2 := List.mem_of_find?_eq_some hfind
    have hfind2 : assocFind p s.conns = some conn :=
      hv ▸ assocFind_of_nodup_mem hnd hmem2
    rw [handleConnClose_found hfind hfind2]
    simp [hfull]

/-- C6 witness: part one applied to a state where B's tracked connection
is 2 while connection 1 (its replaced predecessor) closes; part two
applied to the tracked connection 2 of a full epoch. -/
theorem connClose_tracked_only_witness :
    ((([(("B" : String), (2 : ℕ))].map Prod.fst).Nodup ∧
       assocFind "B" [(("B" : String), (2 : ℕ))] ≠ some 1) ∧
      ("B" ∈ (handleConnClose 1 ⟨"A", 2, ["A", "B"], [("B", 2)], true⟩).roster ↔
        "B" ∈ (⟨"A", 2, ["A", "B"], [("B", 2)], true⟩ : LobbyState).roster)) ∧
    ((("B", (2 : ℕ)) ∈ [(("B" : String), (2 : ℕ))] ∧
       ((⟨"A", 2, ["A", "B"], [("B", 2)], true⟩ : LobbyState).full = true)) ∧
      (handleConnClose 2 ⟨"A", 2, ["A", "B"], [("B", 2)], true⟩).full = false) :=
  ⟨⟨⟨by decide, by decide⟩,
    connClose_tracked_only_and_reopens.1 ⟨"A", 2, ["A", "B"], [("B", 2)], true⟩ 1 "B"
      (by decide) (by decide)⟩,
   ⟨⟨by decide, by decide⟩,
    connClose_tracked_only_and_reopens.2.1 ⟨"A", 2, ["A", "B"], [("B", 2)], true⟩ 2 "B"
      (by decide) (by decide) (by decide)⟩⟩

/-! Claim C3: the streaming key-set of updateTerrainChunks. -/

theorem ensureChunks_keys {M : JSMath} {st : TerrainState} {k : ChunkKey} :
    ∀ {req : List ChunkKey} {m : List (ChunkKey × Chunk)},
      k ∈ (ensureChunks M st req m).map Prod.fst ↔ k ∈ m.map Prod.fst ∨ k ∈ req := by
  intro req
  induction req with
  | nil => intro m; simp [ensureChunks]
  | cons r rs ih =>
    intro m
    have hstep : ∀ m' : List (ChunkKey × Chunk),
        ensureChunks M st (r :: rs) m' = ensureChunks M st rs
          (if (assocFind r m').isSome then m'
           else m' ++ [(r, createTerrainChunk M st r.1 r.2)]) := by
      intro m'
      rw [ensureChunks, List.foldl_cons]
      rfl
    rw [hstep, ih]
    by_cases hf : (assocFind r m).isSome
    · rw [if_pos hf]
      have hr : r ∈ m.map Prod.fst := assocFind_isSome_iff.mp hf
      simp only [List.mem_cons]
      constructor
      · rintro (h | h)
        · exact Or.inl h
        · exact Or.inr (Or.inr h)
      · rintro (h | rfl | h)
        · exact Or.inl h
        · exact Or.inl hr
        · exact Or.inr h
    · rw [if_neg hf]
      simp only [List.map_append, List.mem_append, List.map_cons, List.map_nil,
        List.mem_singleton, List.mem_cons]
      tauto

theorem withinRender_bounds {st : TerrainState} (hcs : 0 < st.chunkSize)
    {dx dz : ℤ} (hw : withinRender st dx dz = true) :
    -⌈st.renderDistance / st.chunkSize⌉ ≤ dx ∧ dx ≤ ⌈st.renderDistance / st.chunkSize⌉ ∧
    -⌈st.renderDistance / st.chunkSize⌉ ≤ dz ∧ dz ≤ ⌈st.renderDistance / st.chunkSize⌉ := by
  rw [withinRender, Bool.and_eq_true, decide_eq_true_eq, decide_eq_true_eq] at hw
  obtain ⟨hrd, hsq⟩ := hw
  have hcs2 : (0 : ℚ) < st.chunkSize ^ 2 := by positivity
  have hcast : ((dx : ℚ) ^ 2 + (dz : ℚ) ^ 2) * st.chunkSize ^ 2 ≤ st.renderDistance ^ 2 := by
    push_cast at hsq
    nlinarith [hsq]
  have hb : (0 : ℚ) ≤ st.renderDistance / st.chunkSize := div_nonneg hrd hcs.le
  have hceil := Int.le_ceil (st.renderDistance / st.chunkSize)
  have hgen : ∀ w : ℤ, (w : ℚ) ^ 2 * st.chunkSize ^ 2 ≤ st.renderDistance ^ 2 →
      -⌈st.renderDistance / st.chunkSize⌉ ≤ w ∧ w ≤ ⌈st.renderDistance / st.chunkSize⌉ := by
    intro w hw2
    have hwd : (w : ℚ) ^ 2 ≤ (st.renderDistance / st.chunkSize) ^ 2 := by
      rw [div_pow]
      exact (le_div_iff₀ hcs2).mpr hw2
    obtain ⟨h1, h2⟩ := abs_le_of_sq_le_sq' hwd hb
    constructor
    · exact_mod_cast le_trans (neg_le_neg hceil) h1
    · exact_mod_cast le_trans h2 hceil
  obtain ⟨hx1, hx2⟩ := hgen dx (by nlinarith [sq_nonneg (dz : ℚ), hcs2.le])
  obtain ⟨hz1, hz2⟩ := hgen dz (by nlinarith [sq_nonneg (dx : ℚ), hcs2.le])
  exact ⟨hx1, hx2, hz1, hz2⟩

theorem mem_requiredKeys_iff {st : TerrainState} (hcs : 0 < st.chunkSize)
    {px pz : ℚ} {k : ChunkKey} :
    k ∈ requiredKeys st px pz ↔
      withinRender st (k.1 - ⌊px / st.chunkSize⌋) (k.2 - ⌊pz / st.chunkSize⌋) = true := by
  constructor
  · intro hk
    unfold requiredKeys at hk
    obtain ⟨dx, _, hk2⟩ := List.mem_flatMap.mp hk
    obtain ⟨dz, _, hk3⟩ := List.mem_filterMap.mp hk2
    by_cases hw : withinRender st dx dz = true
    · rw [if_pos hw] at hk3
      obtain rfl := Option.some.inj hk3
      simpa [add_sub_cancel_left] using hw
    · rw [if_neg hw] at hk3
      cases hk3
  · intro hw
    obtain ⟨hx1, hx2, hz1, hz2⟩ := withinRender_bounds hcs hw
    unfold requiredKeys
    refine List.mem_flatMap.mpr ⟨k.1 - ⌊px / st.chunkSize⌋, intRange_mem.mpr ⟨hx1, hx2⟩, ?_⟩
    refine List.mem_filterMap.mpr ⟨k.2 - ⌊pz / st.chunkSize⌋, intRange_mem.mpr ⟨hz1, hz2⟩, ?_⟩
    rw [if_pos hw]
    congr 1
    obtain ⟨k1, k2⟩ := k
    simp only [Prod.mk.injEq]
    constructor <;> omega

unseal Rat.add Rat.mul Rat.inv Rat.sub Rat.ofScientific in
/-- C3 counterexample.  With chunk size 100, render distance 150 and the
nine origin-block chunks cached, a call with reference point
(99.9, 0) returns with the cache unchanged: key (2, 0), whose chunk
center (200, 0) lies at distance 100.1 <= 150 from the reference, is not
cached, so the cached key set differs from the claimed
center-distance-to-reference set. -/
theorem updateChunks_not_center_distance_set :
    updateTerrainChunks jsMathZero streamState (999/10) 0 = some streamState ∧
    (2, 0) ∉ streamState.terrainChunks.map Prod.fst ∧
    specCenterWithin streamState (999/10) 0 (2, 0) := by
  refine ⟨by decide, by decide, by decide⟩

unseal Rat.add Rat.mul Rat.inv Rat.sub Rat.ofScientific in
/-- C3 as amended.  After updateTerrainChunks returns successfully, the
set of cached chunk keys equals exactly the set of keys whose offset from
the reference point's containing chunk (the floor of the reference over
chunkSize) passes the render-distance test
sqrt(dx^2 + dz^2) * chunkSize <= renderDistance - the distance the code
measures is taken from the chunk-grid-snapped player position, not from
the reference point itself.  For the spec's configuration (chunk size
100, render distance 150) and reference exactly (0, 0), this set is
exactly the nine keys of the 3 x 3 block around the origin, and (2, 0)
at distance 200 is excluded. -/
theorem updateChunks_key_set (M : JSMath) (st : TerrainState) (px pz : ℚ)
    (st' : TerrainState) (hcs : 0 < st.chunkSize)
    (h : updateTerrainChunks M st px pz = some st') :
    (∀ k : ChunkKey, k ∈ st'.terrainChunks.map Prod.fst ↔
      withinRender st (k.1 - ⌊px / st.chunkSize⌋) (k.2 - ⌊pz / st.chunkSize⌋) = true) ∧
    requiredKeys streamState 0 0 =
      [(-1, -1), (-1, 0), (-1, 1), (0, -1), (0, 0), (0, 1), (1, -1), (1, 0), (1, 1)] ∧
    (2, 0) ∉ requiredKeys streamState 0 0 := by
  refine ⟨?_, ?_, ?_⟩
  · intro k
    rw [← mem_requiredKeys_iff hcs]
    rw [updateTerrainChunks] at h
    split at h
    · obtain rfl := Option.some.inj h.symm
      constructor
      · intro hk
        obtain ⟨e, he, rfl⟩ := List.mem_map.mp hk
        have hf := List.mem_filter.mp he
        simpa using hf.2
      · intro hk
        have hk2 : k ∈ (ensureChunks M st (requiredKeys st px pz) st.terrainChunks).map Prod.fst :=
          ensureChunks_keys.mpr (Or.inr hk)
        obtain ⟨e, he, rfl⟩ := List.mem_map.mp hk2
        exact List.mem_map.mpr ⟨e, List.mem_filter.mpr ⟨he, by simpa using hk⟩, rfl⟩
    · cases h
  · decide
  · decide

unseal Rat.add Rat.mul Rat.inv Rat.sub Rat.ofScientific in
/-- C3 witness: the amended key-set theorem applied to the example
configuration at reference (0, 0), instantiated at key (0, 1). -/
theorem updateChunks_key_set_witness :
    ((0 : ℚ) < streamState.chunkSize ∧
      updateTerrainChunks jsMathZero streamState 0 0 = some streamState) ∧
    (((0, 1) : ChunkKey) ∈ streamState.terrainChunks.map Prod.fst ↔
      withinRender streamState (0 - ⌊(0 : ℚ) / streamState.chunkSize⌋)
        (1 - ⌊(0 : ℚ) / streamState.chunkSize⌋) = true) :=
  ⟨⟨by decide, by decide⟩,
   (updateChunks_key_set jsMathZero streamState 0 0 streamState
     (by decide) (by decide)).1 (0, 1)⟩

/-! Claim C10: chunk well-formedness and the safety of the eviction
dereference. -/

theorem ensureChunks_cons (M : JSMath) (st : TerrainState) (r : ChunkKey)
    (rs : List ChunkKey) (m : List (ChunkKey × Chunk)) :
    ensureChunks M st (r :: rs) m = ensureChunks M st rs
      (if (assocFind r m).isSome then m
       else m ++ [(r, createTerrainChunk M st r.1 r.2)]) := by
  rw [ensureChunks, ensureChunks, List.foldl_cons]

theorem sum_map_const_range (m c : ℕ) :
    ((List.range m).map (fun _ => c)).sum = m * c := by
  induction m with
  | zero => simp
  | succ m ih =>
    rw [List.range_succ, List.map_append, List.sum_append]
    simp [ih, Nat.succ_mul]

theorem chunkVerts_length (M : JSMath) (st : TerrainState) (cx cz : ℤ) :
    (chunkVerts M st cx cz).length = (st.chunkResolution + 1) ^ 2 := by
  unfold chunkVerts
  rw [List.length_flatMap]
  simp only [Function.comp_def, List.length_map, List.length_range]
  rw [sum_map_const_range, pow_two]

theorem createTerrainChunk_wf (M : JSMath) (st : TerrainState) (cx cz : ℤ)
    (hseed : st.terrainSeed ≠ 0) :
    (createTerrainChunk M st cx cz).mesh.isSome = true ∧
    (createTerrainChunk M st cx cz).originalHeights.length =
      (st.chunkResolution + 1) ^ 2 := by
  unfold createTerrainChunk
  rw [if_neg hseed]
  exact ⟨rfl, by simp [chunkVerts_length]⟩

theorem ensureChunks_all {M : JSMath} {st : TerrainState}
    (P : ChunkKey × Chunk → Prop) :
    ∀ {req : List ChunkKey} {m : List (ChunkKey × Chunk)},
      (∀ e ∈ m, P e) → (∀ k : ChunkKey, P (k, createTerrainChunk M st k.1 k.2)) →
      ∀ e ∈ ensureChunks M st req m, P e := by
  intro req
  induction req with
  | nil => intro m hm _ e he; exact hm e he
  | cons r rs ih =>
    intro m hm hc e he
    rw [ensureChunks_cons] at he
    refine ih ?_ hc e he
    by_cases hf : (assocFind r m).isSome
    · rw [if_pos hf]; exact hm
    · rw [if_neg hf]
      intro e' he'
      rcases List.mem_append.mp he' with h | h
      · exact hm e' h
      · rw [List.mem_singleton.mp h]
        exact hc r

unseal Rat.add Rat.mul Rat.inv Rat.sub Rat.ofScientific in
/-- C10.  First part: when the terrain seed is nonzero and every cached
chunk has a mesh and exactly (chunkResolution + 1)^2 original heights,
updateTerrainChunks succeeds (the unguarded chunk.mesh.geometry
dereference of the eviction path cannot fail) and the well-formedness is
preserved.  Second part: a chunk created while the seed is 0 is
nonetheless stored in the cache, with a null mesh and empty heights.
Third part: evicting such a null-mesh chunk throws, so the eviction
branch is safe only under the nonzero-seed precondition. -/
theorem updateChunks_wellformed_safe :
    (∀ (M : JSMath) (st : TerrainState) (px pz : ℚ),
      st.terrainSeed ≠ 0 →
      (∀ e ∈ st.terrainChunks, e.2.mesh.isSome = true ∧
        e.2.originalHeights.length = (st.chunkResolution + 1) ^ 2) →
      ∃ st', updateTerrainChunks M st px pz = some st' ∧
        ∀ e ∈ st'.terrainChunks, e.2.mesh.isSome = true ∧
          e.2.originalHeights.length = (st.chunkResolution + 1) ^ 2) ∧
    updateTerrainChunks jsMathZero zeroSeedState 0 0 =
      some { zeroSeedState with terrainChunks := [((0, 0), ⟨none, 0, 0, []⟩)] } ∧
    updateTerrainChunks jsMathZero nullMeshEvictState 0 0 = none := by
  refine ⟨?_, by decide, by decide⟩
  intro M st px pz hseed hwf
  have hwf2 : ∀ e ∈ ensureChunks M st (requiredKeys st px pz) st.terrainChunks,
      e.2.mesh.isSome = true ∧ e.2.originalHeights.length = (st.chunkResolution + 1) ^ 2 :=
    ensureChunks_all _ hwf (fun k => createTerrainChunk_wf M st k.1 k.2 hseed)
  have hall : (ensureChunks M st (requiredKeys st px pz) st.terrainChunks).all
      (fun e => decide (e.1 ∈ requiredKeys st px pz) || e.2.mesh.isSome) = true := by
    rw [List.all_eq_true]
    intro e he
    rw [(hwf2 e he).1]
    simp
  refine ⟨{ st with terrainChunks := List.filter (fun e => decide (e.1 ∈ requiredKeys st px pz)) (ensureChunks M st (requiredKeys st px pz) st.terrainChunks) }, ?_, ?_⟩
  · rw [updateTerrainChunks, if_pos hall]
  · intro e he
    exact hwf2 e (List.mem_filter.mp he).1

theorem updateChunks_wellformed_safe_witness :
    (wfDemoState.terrainSeed ≠ 0 ∧
      (∀ e ∈ wfDemoState.terrainChunks, e.2.mesh.isSome = true ∧
        e.2.originalHeights.length = (wfDemoState.chunkResolution + 1) ^ 2)) ∧
    (∃ st', updateTerrainChunks jsMathZero wfDemoState 0 0 = some st' ∧
      ∀ e ∈ st'.terrainChunks, e.2.mesh.isSome = true ∧
        e.2.originalHeights.length = (wfDemoState.chunkResolution + 1) ^ 2) :=
  ⟨⟨by decide, by simp [wfDemoState]⟩,
   updateChunks_wellformed_safe.1 jsMathZero wfDemoState 0 0 (by decide)
     (by simp [wfDemoState])⟩

/-! Claim C9: adjacent chunks agree at shared boundary vertices. -/

theorem flatMap_range_getElem? {α : Type} (m : ℕ) :
    ∀ (j N : ℕ) (g : ℕ → List α), (∀ a, (g a).length = m) → j < N → ∀ i, i < m →
      ((List.range N).flatMap g)[j * m + i]? = (g j)[i]? := by
  intro j
  induction j with
  | zero =>
    intro N g hg hN i hi
    obtain ⟨N', rfl⟩ : ∃ N', N = N' + 1 := ⟨N - 1, by omega⟩
    rw [List.range_succ_eq_map, List.flatMap_cons, Nat.zero_mul, Nat.zero_add]
    exact List.getElem?_append_left (by rw [hg]; exact hi)
  | succ j ih =>
    intro N g hg hN i hi
    obtain ⟨N', rfl⟩ : ∃ N', N = N' + 1 := ⟨N - 1, by omega⟩
    rw [List.range_succ_eq_map, List.flatMap_cons, List.flatMap_map]
    have hidx : (j + 1) * m + i = (g 0).length + (j * m + i) := by rw [hg]; ring
    rw [hidx, List.getElem?_append_right (Nat.le_add_right _ _), Nat.add_sub_cancel_left]
    exact ih N' (g ∘ Nat.succ) (fun a => hg _) (by omega) i hi

theorem chunkVerts_getElem? (M : JSMath) (st : TerrainState) (cx cz : ℤ)
    {i j : ℕ} (hi : i < st.chunkResolution + 1) (hj : j < st.chunkResolution + 1) :
    (chunkVerts M st cx cz)[j * (st.chunkResolution + 1) + i]? =
      some (chunkVertexPos st cx i,
        generateTerrainHeight M st.terrainSeed (chunkVertexPos st cx i) (chunkVertexPos st cz j),
        chunkVertexPos st cz j) := by
  unfold chunkVerts
  rw [flatMap_range_getElem? (st.chunkResolution + 1) j (st.chunkResolution + 1) _
    (fun a => by simp) hj i hi]
  rw [List.getElem?_map, List.getElem?_range hi]
  rfl

theorem createChunk_heights_getElem? (M : JSMath) (st : TerrainState) (cx cz : ℤ)
    {i j : ℕ} (hi : i < st.chunkResolution + 1) (hj : j < st.chunkResolution + 1)
    (hseed : st.terrainSeed ≠ 0) :
    (createTerrainChunk M st cx cz).originalHeights[j * (st.chunkResolution + 1) + i]? =
      some (generateTerrainHeight M st.terrainSeed (chunkVertexPos st cx i)
        (chunkVertexPos st cz j)) := by
  unfold createTerrainChunk
  rw [if_neg hseed]
  dsimp only
  rw [List.getElem?_map, chunkVerts_getElem? M st cx cz hi hj]
  rfl

theorem chunkVertexPos_boundary (st : TerrainState) (c : ℤ)
    (hres : st.chunkResolution ≠ 0) :
    chunkVertexPos st c st.chunkResolution = chunkVertexPos st (c + 1) 0 := by
  unfold chunkVertexPos
  have hq : (st.chunkResolution : ℚ) ≠ 0 := Nat.cast_ne_zero.mpr hres
  field_simp
  ring

/-- C9.  Adjacent chunks agree at every shared boundary vertex: the world
coordinate computed by chunk (cx, cz) at grid index chunkResolution
equals the one computed by chunk (cx + 1, cz) at grid index 0, the stored
original heights of x-adjacent and z-adjacent chunks coincide at every
shared boundary vertex, and (for a truthy seed) the shared value is the
pure height function evaluated at the shared world coordinate, so no
seam-stitching is needed. -/
theorem chunk_boundary_heights_agree (M : JSMath) (st : TerrainState)
    (cx cz : ℤ) (i j : ℕ) (hres : st.chunkResolution ≠ 0)
    (hi : i ≤ st.chunkResolution) (hj : j ≤ st.chunkResolution) :
    chunkVertexPos st cx st.chunkResolution = chunkVertexPos st (cx + 1) 0 ∧
    (createTerrainChunk M st cx cz).originalHeights[j * (st.chunkResolution + 1) + st.chunkResolution]? =
      (createTerrainChunk M st (cx + 1) cz).originalHeights[j * (st.chunkResolution + 1)]? ∧
    (createTerrainChunk M st cx cz).originalHeights[st.chunkResolution * (st.chunkResolution + 1) + i]? =
      (createTerrainChunk M st cx (cz + 1)).originalHeights[i]? ∧
    (st.terrainSeed ≠ 0 →
      (createTerrainChunk M st cx cz).originalHeights[j * (st.chunkResolution + 1) + st.chunkResolution]? =
        some (generateTerrainHeight M st.terrainSeed (chunkVertexPos st (cx + 1) 0)
          (chunkVertexPos st cz j))) := by
  have hxy := chunkVertexPos_boundary st cx hres
  have hzy := chunkVertexPos_boundary st cz hres
  by_cases hseed : st.terrainSeed = 0
  · refine ⟨hxy, ?_, ?_, fun h => absurd hseed h⟩
    · unfold createTerrainChunk
      rw [if_pos hseed, if_pos hseed]
      rfl
    · unfold createTerrainChunk
      rw [if_pos hseed, if_pos hseed]
      rfl
  · have hres1 : st.chunkResolution < st.chunkResolution + 1 := Nat.lt_succ_self _
    have hi1 : i < st.chunkResolution + 1 := Nat.lt_succ_of_le hi
    have hj1 : j < st.chunkResolution + 1 := Nat.lt_succ_of_le hj
    have h01 : 0 < st.chunkResolution + 1 := Nat.succ_pos _
    refine ⟨hxy, ?_, ?_, fun _ => ?_⟩
    · rw [createChunk_heights_getElem? M st cx cz hres1 hj1 hseed, hxy]
      exact (createChunk_heights_getElem? M st (cx + 1) cz h01 hj1 hseed).symm
    · rw [createChunk_heights_getElem? M st cx cz hi1 hres1 hseed, hzy]
      have h2 := createChunk_heights_getElem? M st cx (cz + 1) hi1 h01 hseed
      rw [Nat.zero_mul, Nat.zero_add] at h2
      exact h2.symm
    · rw [createChunk_heights_getElem? M st cx cz hres1 hj1 hseed, hxy]

/-- C9 witness: the boundary-agreement theorem applied at resolution 1
with seed 1, chunks (0, 0) and (1, 0), shared vertex row 0. -/
theorem chunk_boundary_heights_agree_witness :
    (wfDemoState.chunkResolution ≠ 0 ∧ 0 ≤ wfDemoState.chunkResolution ∧
      0 ≤ wfDemoState.chunkResolution) ∧
    (chunkVertexPos wfDemoState 0 wfDemoState.chunkResolution =
        chunkVertexPos wfDemoState (0 + 1) 0 ∧
      (createTerrainChunk jsMathZero wfDemoState 0 0).originalHeights[0 * (wfDemoState.chunkResolution + 1) + wfDemoState.chunkResolution]? =
        (createTerrainChunk jsMathZero wfDemoState (0 + 1) 0).originalHeights[0 * (wfDemoState.chunkResolution + 1)]? ∧
      (createTerrainChunk jsMathZero wfDemoState 0 0).originalHeights[wfDemoState.chunkResolution * (wfDemoState.chunkResolution + 1) + 0]? =
        (createTerrainChunk jsMathZero wfDemoState 0 (0 + 1)).originalHeights[0]? ∧
      (wfDemoState.terrainSeed ≠ 0 →
        (createTerrainChunk jsMathZero wfDemoState 0 0).originalHeights[0 * (wfDemoState.chunkResolution + 1) + wfDemoState.chunkResolution]? =
          some (generateTerrainHeight jsMathZero wfDemoState.terrainSeed
            (chunkVertexPos wfDemoState (0 + 1) 0) (chunkVertexPos wfDemoState 0 0)))) :=
  ⟨⟨by decide, by decide, by decide⟩,
   chunk_boundary_heights_agree jsMathZero wfDemoState 0 0 0 0
     (by decide) (by decide) (by decide)⟩

/-! Claim C4: the regeneration transition interpolates every cached
vertex and finishes exactly. -/

theorem writeLerped_length (t : ℚ) (olds news ps : List ℚ) (n : ℕ) :
    (writeLerped t olds news ps n).length = ps.length := by
  unfold writeLerped
  have key : ∀ (l : List ℕ) (a : List ℚ),
      (l.foldl (fun a i => a.set (3 * i + 1)
        (olds.getD i 0 + (news.getD i 0 - olds.getD i 0) * t)) a).length = a.length := by
    intro l
    induction l with
    | nil => intro a; rfl
    | cons x xs ih => intro a; rw [List.foldl_cons, ih, List.length_set]
  exact key _ ps

theorem writeLerped_getElem? (t : ℚ) (olds news : List ℚ) :
    ∀ (n : ℕ) (ps : List ℚ) (j : ℕ), j < n → 3 * j + 1 < ps.length →
      (writeLerped t olds news ps n)[3 * j + 1]? =
        some (olds.getD j 0 + (news.getD j 0 - olds.getD j 0) * t) := by
  intro n
  induction n with
  | zero => intro ps j hj _; exact absurd hj (Nat.not_lt_zero j)
  | succ n ih =>
    intro ps j hj hlen
    have huf : writeLerped t olds news ps (n + 1) =
        (writeLerped t olds news ps n).set (3 * n + 1)
          (olds.getD n 0 + (news.getD n 0 - olds.getD n 0) * t) := by
      unfold writeLerped
      rw [List.range_succ, List.foldl_append, List.foldl_cons, List.foldl_nil]
    rw [huf]
    by_cases hjn : j = n
    · subst hjn
      exact List.getElem?_set_eq_of_lt _ (by rw [writeLerped_length]; exact hlen)
    · rw [List.getElem?_set_ne (by omega)]
      exact ih ps j (by omega) hlen

theorem lerpChunk1_some {old new : List (ChunkKey × List ℚ)} {t : ℚ}
    {k : ChunkKey} {c c' : Chunk} (h : lerpChunk1 old new t k c = some c') :
    ∃ ps, c.mesh = some ps ∧ c'.originalHeights = c.originalHeights ∧
      ((c.originalHeights.length = 0 ∧ c' = c) ∨
       (∃ olds news, assocFind k old = some olds ∧ assocFind k new = some news ∧
         c'.mesh = some (writeLerped t olds news ps c.originalHeights.length))) := by
  unfold lerpChunk1 at h
  split at h
  · cases h
  · rename_i ps hm
    split at h
    · rename_i h0
      obtain rfl := Option.some.inj h
      exact ⟨ps, hm, rfl, Or.inl ⟨h0, rfl⟩⟩
    · split at h
      · cases h
      · rename_i olds ho
        split at h
        · cases h
        · rename_i news hn
          obtain rfl := Option.some.inj h
          exact ⟨ps, hm, rfl, Or.inr ⟨olds, news, ho, hn, rfl⟩⟩

theorem lerpChunks_sound {old new : List (ChunkKey × List ℚ)} {t : ℚ} :
    ∀ {l l' : List (ChunkKey × Chunk)}, lerpChunks old new t l = some l' →
      ∀ k c', (k, c') ∈ l' → ∃ c, (k, c) ∈ l ∧ lerpChunk1 old new t k c = some c' := by
  intro l
  induction l with
  | nil =>
    intro l' h k c' hm
    obtain rfl := Option.some.inj h
    simp at hm
  | cons e rest ih =>
    intro l' h k c' hm
    obtain ⟨ke, ce⟩ := e
    unfold lerpChunks at h
    split at h
    · cases h
    · rename_i c1 h1
      split at h
      · cases h
      · rename_i rest' h2
        obtain rfl := Option.some.inj h
        rcases List.mem_cons.mp hm with hh | hh
        · rw [Prod.mk.injEq] at hh
          obtain ⟨rfl, rfl⟩ := hh
          exact ⟨ce, List.mem_cons_self _ _, h1⟩
        · obtain ⟨c, hmem, hc⟩ := ih h2 k c' hh
          exact ⟨c, List.mem_cons_of_mem _ hmem, hc⟩

theorem finishChunk1_some {new : List (ChunkKey × List ℚ)} {k : ChunkKey}
    {c c' : Chunk} (h : finishChunk1 new k c = some c') :
    c'.mesh = c.mesh ∧ c'.originalHeights.length = c.originalHeights.length ∧
      (c.originalHeights.length = 0 ∨
       ∃ news, assocFind k new = some news ∧
         ∀ i, i < c.originalHeights.length →
           c'.originalHeights[i]? = some (news.getD i 0)) := by
  unfold finishChunk1 at h
  split at h
  · rename_i h0
    obtain rfl := Option.some.inj h
    exact ⟨rfl, rfl, Or.inl h0⟩
  · split at h
    · rename_i news hn
      obtain rfl := Option.some.inj h
      refine ⟨rfl, by simp, Or.inr ⟨news, hn, ?_⟩⟩
      intro i hi
      simp only [List.getElem?_map, List.getElem?_range hi]
      rfl
    · cases h

theorem finishChunks_sound {new : List (ChunkKey × List ℚ)} :
    ∀ {l l' : List (ChunkKey × Chunk)}, finishChunks new l = some l' →
      ∀ k c', (k, c') ∈ l' → ∃ c, (k, c) ∈ l ∧ finishChunk1 new k c = some c' := by
  intro l
  induction l with
  | nil =>
    intro l' h k c' hm
    obtain rfl := Option.some.inj h
    simp at hm
  | cons e rest ih =>
    intro l' h k c' hm
    obtain ⟨ke, ce⟩ := e
    unfold finishChunks at h
    split at h
    · cases h
    · rename_i c1 h1
      split at h
      · cases h
      · rename_i rest' h2
        obtain rfl := Option.some.inj h
        rcases List.mem_cons.mp hm with hh | hh
        · rw [Prod.mk.injEq] at hh
          obtain ⟨rfl, rfl⟩ := hh
          exact ⟨ce, List.mem_cons_self _ _, h1⟩
        · obtain ⟨c, hmem, hc⟩ := ih h2 k c' hh
          exact ⟨c, List.mem_cons_of_mem _ hmem, hc⟩

theorem updateTerrainChunks_fields {M : JSMath} {s : TerrainState} {px pz : ℚ}
    {s' : TerrainState} (h : updateTerrainChunks M s px pz = some s') :
    s' = { s with terrainChunks := s'.terrainChunks } := by
  rw [updateTerrainChunks] at h
  split at h
  · obtain rfl := Option.some.inj h
    rfl
  · cases h

/-- C4.  While a regeneration transition is active, a frame update that
returns successfully leaves every cached chunk's mesh with vertex heights
old + (new - old) * min(1, elapsed / duration), the old and new samples
taken from the transition tables at the chunk's key; once the
accumulated elapsed time reaches the duration, every vertex equals the
new height exactly, the new samples become each chunk's baseline
originalHeights, the generator's seed becomes the pending seed, and the
transition deactivates; before that the transition stays active and only
accumulates time. -/
theorem update_regen_lerp (M : JSMath) (st : TerrainState) (dt px pz : ℚ)
    (st' : TerrainState) (hact : st.regenLerpActive = true)
    (_hdur : 0 < st.regenLerpDuration)
    (hupd : update M st dt px pz = some st') :
    (∀ k c, (k, c) ∈ st'.terrainChunks → ∃ ps, c.mesh = some ps ∧
      ∀ i, i < c.originalHeights.length → 3 * i + 1 < ps.length →
        ∃ olds news, assocFind k st.regenOldHeights = some olds ∧
          assocFind k st.regenNewHeights = some news ∧
          ps[3 * i + 1]? = some (olds.getD i 0 + (news.getD i 0 - olds.getD i 0) *
            min 1 ((st.regenLerpTime + dt) / st.regenLerpDuration))) ∧
    (1 ≤ (st.regenLerpTime + dt) / st.regenLerpDuration →
      st'.regenLerpActive = false ∧ st'.terrainSeed = st.regenSeed ∧
      (∀ k c, (k, c) ∈ st'.terrainChunks → ∀ i, i < c.originalHeights.length →
        ∃ news, assocFind k st.regenNewHeights = some news ∧
          c.originalHeights[i]? = some (news.getD i 0)) ∧
      (∀ k c, (k, c) ∈ st'.terrainChunks → ∃ ps, c.mesh = some ps ∧
        ∀ i, i < c.originalHeights.length → 3 * i + 1 < ps.length →
          ∃ news, assocFind k st.regenNewHeights = some news ∧
            ps[3 * i + 1]? = some (news.getD i 0))) ∧
    (¬ 1 ≤ (st.regenLerpTime + dt) / st.regenLerpDuration →
      st'.regenLerpActive = true ∧ st'.regenLerpTime = st.regenLerpTime + dt) := by
  unfold update at hupd
  obtain ⟨st1, h1, h2⟩ := Option.bind_eq_some.mp hupd
  obtain ⟨l1, rfl⟩ : ∃ l, st1 = { st with
      wavePhase := st.wavePhase + dt * st.waveSpeed, terrainChunks := l } :=
    ⟨st1.terrainChunks, updateTerrainChunks_fields h1⟩
  simp only [regenLerpStep, animateTerrainChunks, hact, if_true] at h2
  obtain ⟨chunks1, hl, hfin⟩ := Option.bind_eq_some.mp h2
  have hmin : (1 : ℚ) ≤ min 1 ((st.regenLerpTime + dt) / st.regenLerpDuration) ↔
      1 ≤ (st.regenLerpTime + dt) / st.regenLerpDuration := by
    rw [le_min_iff]
    simp
  have hmain : ∀ k c', (k, c') ∈ chunks1 → ∃ ps, c'.mesh = some ps ∧
      ∀ i, i < c'.originalHeights.length → 3 * i + 1 < ps.length →
        ∃ olds news, assocFind k st.regenOldHeights = some olds ∧
          assocFind k st.regenNewHeights = some news ∧
          ps[3 * i + 1]? = some (olds.getD i 0 + (news.getD i 0 - olds.getD i 0) *
            min 1 ((st.regenLerpTime + dt) / st.regenLerpDuration)) := by
    intro k c' hm
    obtain ⟨c0, _, hc1⟩ := lerpChunks_sound hl k c' hm
    obtain ⟨ps0, hmesh0, hoh, hcase⟩ := lerpChunk1_some hc1
    rcases hcase with ⟨h0, rfl⟩ | ⟨olds, news, ho, hn, hmesh'⟩
    · refine ⟨ps0, hmesh0, ?_⟩
      intro i hi _
      have : i < 0 := h0 ▸ hi
      exact absurd this (Nat.not_lt_zero i)
    · refine ⟨writeLerped (min 1 ((st.regenLerpTime + dt) / st.regenLerpDuration))
        olds news ps0 c0.originalHeights.length, hmesh', ?_⟩
      intro i hi hlen
      rw [hoh] at hi
      rw [writeLerped_length] at hlen
      exact ⟨olds, news, ho, hn,
        writeLerped_getElem? _ olds news c0.originalHeights.length ps0 i hi hlen⟩
  split at hfin
  · rename_i hge
    have hge' : 1 ≤ (st.regenLerpTime + dt) / st.regenLerpDuration := hmin.mp hge
    obtain ⟨chunks2, hfc, hst'⟩ := Option.map_eq_some'.mp hfin
    subst hst'
    have hchunks2 : ∀ k c', (k, c') ∈ chunks2 → ∃ c1, (k, c1) ∈ chunks1 ∧
        finishChunk1 st.regenNewHeights k c1 = some c' := finishChunks_sound hfc
    refine ⟨?_, fun _ => ⟨rfl, rfl, ?_, ?_⟩, fun hno => absurd hge' hno⟩
    · intro k c hm
      obtain ⟨c1, hm1, hf1⟩ := hchunks2 k c hm
      obtain ⟨hmesh, hlen, _⟩ := finishChunk1_some hf1
      obtain ⟨ps, hps, hvals⟩ := hmain k c1 hm1
      refine ⟨ps, hmesh.trans hps, ?_⟩
      intro i hi hpi
      exact hvals i (hlen ▸ hi) hpi
    · intro k c hm i hi
      obtain ⟨c1, hm1, hf1⟩ := hchunks2 k c hm
      obtain ⟨_, hlen, hcase⟩ := finishChunk1_some hf1
      rcases hcase with h0 | ⟨news, hn, hvals⟩
      · have : i < 0 := by rw [hlen, h0] at hi; exact hi
        exact absurd this (Nat.not_lt_zero i)
      · exact ⟨news, hn, hvals i (hlen ▸ hi)⟩
    · intro k c hm
      obtain ⟨c1, hm1, hf1⟩ := hchunks2 k c hm
      obtain ⟨hmesh, hlen, _⟩ := finishChunk1_some hf1
      obtain ⟨ps, hps, hvals⟩ := hmain k c1 hm1
      refine ⟨ps, hmesh.trans hps, ?_⟩
      intro i hi hpi
      obtain ⟨olds, news, _, hn, hval⟩ := hvals i (hlen ▸ hi) hpi
      refine ⟨news, hn, ?_⟩
      rw [hval, min_eq_left hge']
      congr 1
      ring
  · rename_i hlt
    have hlt' : ¬ 1 ≤ (st.regenLerpTime + dt) / st.regenLerpDuration :=
      fun hc => hlt (hmin.mpr hc)
    obtain rfl := Option.some.inj hfin
    exact ⟨hmain, fun hc => absurd hc hlt', fun _ => ⟨rfl, rfl⟩⟩

unseal Rat.add Rat.mul Rat.inv Rat.sub Rat.ofScientific in
/-- C4 witness: the transition theorem applied at duration 1 and elapsed
1/2 on the one-chunk demonstration state. -/
theorem update_regen_lerp_witness :
    (regenDemoState.regenLerpActive = true ∧
      (0 : ℚ) < regenDemoState.regenLerpDuration ∧
      update jsMathZero regenDemoState (1/2) 0 0 = some regenDemoStateAfter) ∧
    (¬ 1 ≤ (regenDemoState.regenLerpTime + 1/2) / regenDemoState.regenLerpDuration →
      regenDemoStateAfter.regenLerpActive = true ∧
      regenDemoStateAfter.regenLerpTime = regenDemoState.regenLerpTime + 1/2) :=
  ⟨⟨by decide, by decide, by decide⟩,
   (update_regen_lerp jsMathZero regenDemoState (1/2) 0 0 regenDemoStateAfter
     (by decide) (by decide) (by decide)).2.2⟩

end WaterWorld
